import Mathlib

/-!
# TaskFlow — shallow embedding and verification

A shallow embedding of the `sotamaze/taskflow` NestJS library
(`src/taskflow.service.ts`, first implementation in the file, the one the
claims cite by line number; `callback.service.ts` for the retry executor),
together with theorems settling the frozen claims C1–C10.

Modelling conventions:
* Redis is modelled as an explicit state (`St`): string keys with their
  recorded `EX` seconds, hashes, lists, sorted sets, plus an append-only
  trace of every write effect (`Ev`), which makes ordering claims
  ("happens-before") directly statable.
* All service methods run in the monad `M α := St → Except Err α × St`:
  effects performed before an exception persist, exactly as in the
  JavaScript original where each `await`ed Redis command has already
  executed when a later one rejects.
* `Promise.all [a, b, …]` over already-started promises is modelled by
  running the actions in array order and rejecting afterwards if any
  rejected (`pAll2`, `pAll3`): every branch's effect happens even when a
  sibling rejects, matching JS promise semantics.
* Infrastructure failure (the backing store unreachable) is the state flag
  `down`: every Redis command rejects when it is set.
* Strategies (`BaseStrategy`) are external capabilities; a strategy is
  modelled by the code its `generate` yields, whether `generate`/`send`
  reject, and an observable id under which `send` events are logged.
* `JSON.stringify`/`JSON.parse` on the opaque `data`/`recipient` payloads
  are modelled as the identity on the payload's string representation
  (round-trip is lossless for JSON-representable values, spec §4.2); the
  `|| '{}'` fallback for a missing field is kept.
* `Date.now()` and the random part of `generateTaskId` are nondeterministic
  inputs; they are threaded as explicit parameters (`now`, `freshId`).
* JS numeric coercion that matters is kept: `Math.ceil(x / 1000)` on an
  integer-valued field is `ceilDivInt`, `parseInt`/`Number` on a stored
  hash value are `parseIntHV`, and the falsiness of `0`, `''`, `undefined`
  in `a || b` / `a ? a : b` expressions is modelled at each site.
-/

set_option linter.unusedVariables false

namespace TaskFlow

/-- Errors carried by rejected promises. -/
abbrev Err := String

/-- A Redis hash-field value as the JS code wrote it: either a string or a
number (ioredis coerces numbers to their decimal string on the wire and the
code parses them back with `parseInt`/`Number`, so the tag records the
numeric-ness losslessly). -/
inductive HVal where
  | str (s : String)
  | int (n : Int)
  deriving Repr, DecidableEq

/-- JS truthiness of a hash-field value as *read back* from Redis:
`hgetall` yields decimal strings for numbers, and a decimal string is
nonempty, hence always truthy (even `"0"` and `"-1"`). -/
def HVal.truthy : HVal → Bool
  | .str s => s ≠ ""
  | .int _ => true

/-- Numeric coercion of a hash value in an arithmetic context (`none` =
`NaN`; the service stores every numeric field with the `.int` tag, so a
`.str` here is non-numeric text). -/
def HVal.toNum : HVal → Option Int
  | .int n => some n
  | .str _ => none

/-- Numeric coercion of a hash value, as `parseInt`/`Number` produce it on
the strings the service itself stored (`none` = `NaN`). -/
def parseIntHV : Option HVal → Option Int
  | some (.int n) => some n
  | _ => none

/-- `NaN`-aware `x > 0` (`NaN > 0` is `false` in JS). -/
def gtZero : Option Int → Bool
  | some n => n > 0
  | none => false

/-- String interpolation `${x}` of a hash value (`undefined` prints as
`"undefined"`). -/
def interpHV : Option HVal → String
  | none => "undefined"
  | some (.str s) => s
  | some (.int n) => toString n

/-- `Math.ceil (a / b)` on integers (real division then ceiling); used for
millisecond→second conversions, including `Math.ceil(-1 / 1000) = 0`. -/
def ceilDivInt (a b : Int) : Int := -((-a).fdiv b)

/-- Association-list lookup (declared early: used by `TaskMeta`
accessors). -/
def alookup {α : Type} (l : List (String × α)) (k : String) : Option α :=
  match l with
  | [] => none
  | (k', v) :: t => if k' = k then some v else alookup t k

/-- What `getTaskMetadata` returns: the spread of the raw `hgetall` hash
(`raw`) with `data`, `recipient`, `priority`, `timeout`, `timestamp`
overridden by their parsed forms; every other field (`ttl`, `status`, …)
is reached through `raw`. Declared before `Ev` because the
`task_verified` publish carries this value as its payload. -/
structure TaskMeta where
  raw : List (String × HVal)
  data : String
  recipient : String
  priority : Option Int
  timeout : Option Int
  timestamp : Option Int
  deriving Repr, DecidableEq

/-- The raw (un-parsed) `ttl` field kept by the object spread. -/
def TaskMeta.ttlRaw (m : TaskMeta) : Option HVal := alookup m.raw "ttl"

/-- One observable write effect, recorded in program order. -/
inductive Ev where
  | setK (k v : String) (ex : Int)
  | delK (k : String)
  | hmsetK (k : String) (fields : List (String × HVal))
  | expireK (k : String) (secs : Int)
  | rpushK (k : String) (vals : List String)
  | zaddK (k : String) (score : Int) (member : String)
  | lremK (k member : String)
  | zremK (k member : String)
  | pubTask (channel : String) (payload : TaskMeta)
  | sent (sid recipient code : String)
  deriving Repr, DecidableEq

/-- The backing store plus the effect trace. -/
structure St where
  /-- string keys: key ↦ (value, EX seconds recorded at the last SET) -/
  kv : List (String × String × Int) := []
  /-- hash keys: key ↦ field/value pairs -/
  hashes : List (String × List (String × HVal)) := []
  /-- list keys (FIFO queues) -/
  lists : List (String × List String) := []
  /-- sorted-set keys (priority queues): key ↦ (member, score) pairs -/
  zsets : List (String × List (String × Int)) := []
  /-- append-only log of write effects, oldest first -/
  trace : List Ev := []
  /-- infrastructure failure: every Redis command rejects -/
  down : Bool := false
  deriving Repr, DecidableEq

/-- The execution monad: state passing with JS exceptions; state survives a
throw (commands already issued stay issued). -/
def M (α : Type) : Type := St → Except Err α × St

instance : Monad M where
  pure a := fun s => (Except.ok a, s)
  bind m f := fun s =>
    match m s with
    | (Except.ok a, s') => f a s'
    | (Except.error e, s') => (Except.error e, s')

/-- `throw` (a rejected promise). -/
def M.fail {α : Type} (e : Err) : M α := fun s => (Except.error e, s)

/-- `try … catch …`. -/
def M.tryCatch {α : Type} (body : M α) (handler : Err → M α) : M α := fun s =>
  match body s with
  | (Except.ok a, s') => (Except.ok a, s')
  | (Except.error e, s') => handler e s'

/-- `Promise.all([a, b])`: both started, so both effects run in array
order; the join rejects (with the first rejection) only afterwards. -/
def pAll2 {α β : Type} (a : M α) (b : M β) : M (α × β) := fun s =>
  match a s with
  | (Except.ok x, s₁) =>
      match b s₁ with
      | (Except.ok y, s₂) => (Except.ok (x, y), s₂)
      | (Except.error e, s₂) => (Except.error e, s₂)
  | (Except.error e, s₁) =>
      match b s₁ with
      | (_, s₂) => (Except.error e, s₂)

/-- `Promise.all([a, b, c])` for unit-valued promises. -/
def pAll3 (a b c : M Unit) : M Unit := fun s =>
  let (ra, s₁) := a s
  let (rb, s₂) := b s₁
  let (rc, s₃) := c s₂
  match ra with
  | Except.error e => (Except.error e, s₃)
  | Except.ok _ =>
    match rb with
    | Except.error e => (Except.error e, s₃)
    | Except.ok _ => (rc, s₃)

/-- Association-list update (last write wins, order of first insertion
kept). -/
def upsert {α : Type} (l : List (String × α)) (k : String) (v : α) :
    List (String × α) :=
  match l with
  | [] => [(k, v)]
  | (k', v') :: t => if k' = k then (k, v) :: t else (k', v') :: upsert t k v

/-- Association-list removal. -/
def aremove {α : Type} (l : List (String × α)) (k : String) :
    List (String × α) :=
  match l with
  | [] => []
  | (k', v) :: t => if k' = k then aremove t k else (k', v) :: aremove t k

namespace Redis

/-- Guard shared by every command: reject when the store is down. -/
def guard {α : Type} (act : M α) : M α := fun s =>
  if s.down then (Except.error "ECONNREFUSED", s) else act s

/-- `GET key` (`null` for a missing key). -/
def get (k : String) : M (Option String) :=
  guard fun s => (Except.ok ((alookup s.kv k).map Prod.fst), s)

/-- `SET key value EX seconds`; Redis rejects a non-positive expire. -/
def setEx (k v : String) (ex : Int) : M Unit :=
  guard fun s =>
    if ex ≤ 0 then (Except.error "ERR invalid expire time in set", s)
    else (Except.ok (),
      { s with kv := upsert s.kv k (v, ex), trace := s.trace ++ [.setK k v ex] })

/-- `DEL key` (any key type; idempotent). -/
def del (k : String) : M Unit :=
  guard fun s => (Except.ok (),
    { s with kv := aremove s.kv k, hashes := aremove s.hashes k,
             lists := aremove s.lists k, zsets := aremove s.zsets k,
             trace := s.trace ++ [.delK k] })

/-- `HMSET key field value …` (upserts each field). -/
def hmset (k : String) (fields : List (String × HVal)) : M Unit :=
  guard fun s =>
    let h := (alookup s.hashes k).getD []
    let h' := fields.foldl (fun acc (fv : String × HVal) => upsert acc fv.1 fv.2) h
    (Except.ok (),
      { s with hashes := upsert s.hashes k h',
               trace := s.trace ++ [.hmsetK k fields] })

/-- `HGETALL key` (ioredis returns `{}`, never `null`, for a missing key). -/
def hgetall (k : String) : M (List (String × HVal)) :=
  guard fun s => (Except.ok ((alookup s.hashes k).getD []), s)

/-- `EXPIRE key seconds` (only logged; the passage of time is not
modelled — an expired key is simply an absent one). -/
def expire (k : String) (secs : Int) : M Unit :=
  guard fun s => (Except.ok (), { s with trace := s.trace ++ [.expireK k secs] })

/-- `RPUSH key v₁ v₂ …` appends every argument. -/
def rpush (k : String) (vals : List String) : M Unit :=
  guard fun s =>
    let l := (alookup s.lists k).getD []
    (Except.ok (),
      { s with lists := upsert s.lists k (l ++ vals),
               trace := s.trace ++ [.rpushK k vals] })

/-- `ZADD key score member`. -/
def zadd (k : String) (score : Int) (member : String) : M Unit :=
  guard fun s =>
    let z := (alookup s.zsets k).getD []
    (Except.ok (),
      { s with zsets := upsert s.zsets k (upsert z member score),
               trace := s.trace ++ [.zaddK k score member] })

/-- `LREM key 0 member`: removes every occurrence of `member`. -/
def lrem (k member : String) : M Unit :=
  guard fun s =>
    match alookup s.lists k with
    | none => (Except.ok (), { s with trace := s.trace ++ [.lremK k member] })
    | some l => (Except.ok (),
        { s with lists := upsert s.lists k (l.filter (· ≠ member)),
                 trace := s.trace ++ [.lremK k member] })

/-- `ZREM key member`. -/
def zrem (k member : String) : M Unit :=
  guard fun s =>
    match alookup s.zsets k with
    | none => (Except.ok (), { s with trace := s.trace ++ [.zremK k member] })
    | some z => (Except.ok (),
        { s with zsets := upsert s.zsets k (aremove z member),
                 trace := s.trace ++ [.zremK k member] })

/-- `TYPE key`. -/
def typeOf (k : String) : M String :=
  guard fun s =>
    if (alookup s.kv k).isSome then (Except.ok "string", s)
    else if (alookup s.hashes k).isSome then (Except.ok "hash", s)
    else if (alookup s.lists k).isSome then (Except.ok "list", s)
    else if (alookup s.zsets k).isSome then (Except.ok "zset", s)
    else (Except.ok "none", s)

/-- `PUBLISH channel message`; the only call site serializes a `TaskMeta`
(`JSON.stringify(metadata)`), so the payload is modelled as the metadata
value itself. -/
def publish (ch : String) (payload : TaskMeta) : M Unit :=
  guard fun s => (Except.ok (), { s with trace := s.trace ++ [.pubTask ch payload] })

end Redis

/-! ## The service layer (`taskflow.service.ts`, first implementation) -/

/-- The Redis key `otp:<taskId>:<method>`. -/
def otpKey (taskId method : String) : String := "otp:" ++ taskId ++ ":" ++ method

/-- The Redis key `task:<taskId>`. -/
def taskKey (taskId : String) : String := "task:" ++ taskId

/-- `TaskFlowStatus` enum. -/
inductive TaskFlowStatus where
  | PENDING
  | SUCCESS
  deriving Repr, DecidableEq

/-- The enum's string value (tasks are stored with it). -/
def TaskFlowStatus.str : TaskFlowStatus → String
  | .PENDING => "PENDING"
  | .SUCCESS => "SUCCESS"

/-- `Object.values(TaskFlowMethods)`: the three built-in method names,
used by `cleanupOtpKeys`. -/
def taskFlowMethods : List String := ["SMS", "EMAIL", "SMART_OTP"]

/-- An external notification strategy (`BaseStrategy`): `generate` yields
`genCode` (or rejects when `genFails`), `send` records a `sent` event
under the observable id `sid` (or rejects when `sendFails`). Strategies
are host-supplied collaborators, out of the core's scope (spec §1), so
they are modelled by their observable behaviour. -/
structure BaseStrategy where
  sid : String
  genCode : String
  genFails : Bool := false
  sendFails : Bool := false
  deriving Repr, DecidableEq

/-- `strategy.generate({...data, recipient})`: the model's code does not
depend on the payload (the strategy is an arbitrary external capability
fixed per theorem). -/
def BaseStrategy.generate (st : BaseStrategy) : M String := fun s =>
  (if st.genFails then Except.error "generate failed" else Except.ok st.genCode, s)

/-- `strategy.send(recipient, code)`. -/
def BaseStrategy.send (st : BaseStrategy) (recipient code : String) : M Unit := fun s =>
  if st.sendFails then (Except.error "send failed", s)
  else (Except.ok (), { s with trace := s.trace ++ [.sent st.sid recipient code] })

/-- `AddTaskOptions` (`data` and `recipient` are opaque payloads, kept as
strings; `allowedMethods` is typed `('SMS'|'EMAIL'|'SMART_OTP')[]` in the
source but only its string values matter here). -/
structure AddTaskOptions where
  recipient : String
  allowedMethods : List String
  priority : Option Int := none
  timeout : Option Nat := none
  ttl : Option Nat := none
  deriving Repr, DecidableEq

/-- The module options and the injected strategy registry (an insertion-
ordered map, as a JS object is for `Object.keys`). -/
structure Service where
  jobTimeout : Option Nat := none
  strategies : List (String × BaseStrategy) := []
  deriving Repr, DecidableEq

/-- `a || b` on an optional number (`0` and `undefined` are falsy). -/
def jsOr (a : Option Nat) (b : Nat) : Nat :=
  match a with
  | some n => if n = 0 then b else n
  | none => b

/-- `JSON.stringify` on an opaque payload: modelled as the identity on
the payload's string representation (round-trip lossless, spec §4.2). -/
def jsonStringify (s : String) : String := s

/-- `JSON.parse`, the inverse of `jsonStringify` under this model. -/
def jsonParse (s : String) : String := s

/-- What `createTaskMetadata` builds (field order as in the object
literal). -/
structure TaskRecord where
  id : String
  queue : String
  data : String
  recipient : String
  status : TaskFlowStatus
  priority : Int
  timeout : Nat
  timestamp : Nat
  ttl : Option Nat
  deriving Repr, DecidableEq

/-- `createTaskMetadata(taskId, queueName, data, options)`; `Date.now()`
is the explicit parameter `now`. -/
def createTaskMetadata (svc : Service) (taskId queueName : String)
    (data : String) (options : AddTaskOptions) (now : Nat) : TaskRecord :=
  { id := taskId
    queue := queueName
    data := data
    recipient := options.recipient
    status := .PENDING
    priority := options.priority.getD 0
    timeout := jsOr options.timeout (jsOr svc.jobTimeout 30000)
    timestamp := now
    ttl := options.ttl }

/-- The serialized hash written by `saveTaskMetadata`: the object spread
with `data`/`recipient` JSON-encoded and `ttl: metadata.ttl ? metadata.ttl
: -1` (so an unset — or `0` — ttl is stored as `-1`). -/
def serializeMetadata (t : TaskRecord) : List (String × HVal) :=
  [("id", .str t.id), ("queue", .str t.queue),
   ("data", .str (jsonStringify t.data)),
   ("recipient", .str (jsonStringify t.recipient)),
   ("status", .str t.status.str),
   ("priority", .int t.priority),
   ("timeout", .int (t.timeout : Int)),
   ("timestamp", .int (t.timestamp : Int)),
   ("ttl", .int (match t.ttl with
                 | some n => if n = 0 then -1 else (n : Int)
                 | none => -1))]

/-- `saveTaskMetadata(taskId, metadata, ttl)`: `hmset`, then `expire` when
`ttl` is truthy. -/
def saveTaskMetadata (taskId : String) (metadata : TaskRecord)
    (ttl : Option Nat) : M Unit := do
  Redis.hmset (taskKey taskId) (serializeMetadata metadata)
  match ttl with
  | some n => if n = 0 then pure () else
      Redis.expire (taskKey taskId) (ceilDivInt (n : Int) 1000)
  | none => pure ()

/-- `metadata.data || '{}'` on a raw hash value, as fed to `JSON.parse`
(an absent field falls back to `'{}'`; a numeric value reads back as its
nonempty decimal string). -/
def strOrEmptyObj : Option HVal → String
  | some (.str s) => if s = "" then "{}" else s
  | some (.int n) => toString n
  | none => "{}"

/-- The parsing step of `getTaskMetadata` (`Number(...)` on the numeric
fields; spread keeps everything else raw). -/
def parseMeta (h : List (String × HVal)) : TaskMeta :=
  { raw := h
    data := jsonParse (strOrEmptyObj (alookup h "data"))
    recipient := jsonParse (strOrEmptyObj (alookup h "recipient"))
    priority := parseIntHV (alookup h "priority")
    timeout := parseIntHV (alookup h "timeout")
    timestamp := parseIntHV (alookup h "timestamp") }

/-- `getTaskMetadata(taskId)`: `hgetall`, throw `Task … not found` when
the hash is absent/empty, else parse. -/
def getTaskMetadata (taskId : String) : M TaskMeta := do
  let h ← Redis.hgetall (taskKey taskId)
  if h = [] then M.fail ("Task with ID " ++ taskId ++ " not found")
  else pure (parseMeta h)

/-- `cacheOtp(taskId, method, otp, metadata)`:
`ttl = metadata.ttl || jobTimeout || 30000` (the stored ttl reads back as
a nonempty — hence truthy — string, `"-1"` included), then
`SET … EX Math.ceil(ttl / 1000)`. A `NaN` ttl would make ioredis send a
non-integer EX, which Redis rejects. -/
def cacheOtp (svc : Service) (taskId method otp : String)
    (metadata : TaskMeta) : M Unit :=
  let ttlv : Option Int :=
    match metadata.ttlRaw with
    | some v => if v.truthy then v.toNum else some (jsOr svc.jobTimeout 30000 : Int)
    | none => some (jsOr svc.jobTimeout 30000 : Int)
  match ttlv with
  | none => M.fail "ERR value is not an integer or out of range"
  | some tv => Redis.setEx (otpKey taskId method) otp (ceilDivInt tv 1000)

/-- `isValidOtpRequest(metadata, method)`. -/
def isValidOtpRequest (svc : Service) (metadata : TaskMeta)
    (method : String) : Bool :=
  if metadata.recipient = "" || method = "" then false
  else if (alookup svc.strategies method).isNone then false
  else true

/-- `generateAndSendOtp(strategy, metadata)`. -/
def generateAndSendOtp (strategy : BaseStrategy) (metadata : TaskMeta) :
    M String := do
  let otp ← strategy.generate
  strategy.send metadata.recipient otp
  pure otp

/-- `resendOtp(taskId, method)`: fetch metadata, validate, generate+send,
cache; every error is caught and logged (the method never rejects). -/
def resendOtp (svc : Service) (taskId method : String) : M Unit :=
  M.tryCatch
    (do
      let metadata ← getTaskMetadata taskId
      if !isValidOtpRequest svc metadata method then pure ()
      else
        match alookup svc.strategies method with
        | none => pure () -- unreachable: `isValidOtpRequest` just checked it
        | some strategy => do
            let otp ← generateAndSendOtp strategy metadata
            cacheOtp svc taskId method otp metadata)
    (fun _ => pure ())

/-- `cleanupOtpKeys(taskId)`: `Promise.all` of `DEL otp:<id>:<m>` for the
three `TaskFlowMethods` values. -/
def cleanupOtpKeys (taskId : String) : M Unit :=
  pAll3 (Redis.del (otpKey taskId "SMS"))
        (Redis.del (otpKey taskId "EMAIL"))
        (Redis.del (otpKey taskId "SMART_OTP"))

/-- The `Object.keys(this.strategies).map(resendOtp)` traversal of
`resendOtpsForAllMethods` (each `resendOtp` has its own catch and never
rejects, so `Promise.all` over them is their sequential composition). -/
def resendForKeys (svc : Service) (taskId : String) :
    List (String × BaseStrategy) → M Unit
  | [] => pure ()
  | (method, _) :: rest => do
      resendOtp svc taskId method
      resendForKeys svc taskId rest

/-- `resendOtpsForAllMethods(taskId)`. -/
def resendOtpsForAllMethods (svc : Service) (taskId : String) : M Unit := do
  cleanupOtpKeys taskId
  resendForKeys svc taskId svc.strategies

/-- `persistUpdatedRecipient(taskId, newRecipient)`. -/
def persistUpdatedRecipient (taskId newRecipient : String) : M Unit :=
  Redis.hmset (taskKey taskId)
    [("recipient", .str (jsonStringify newRecipient))]

/-- `updateRecipient(taskId, newRecipient)`: fetch (throws when the task
is unknown), persist the new recipient, invalidate and re-send for every
registered strategy; all errors caught and logged. -/
def updateRecipient (svc : Service) (taskId newRecipient : String) : M Unit :=
  M.tryCatch
    (do
      let _metadata ← getTaskMetadata taskId
      -- `metadata.recipient = newRecipient` mutates only the local copy
      persistUpdatedRecipient taskId newRecipient
      resendOtpsForAllMethods svc taskId)
    (fun _ => pure ())

/-- `Math.ceil(options.ttl || 30000 / 1000)` in `executeStrategies` —
precedence as written: `options.ttl || (30000 / 1000)`, so a set `ttl`
(milliseconds) is passed whole as the EX argument (seconds), and an
unset/zero `ttl` yields `30`. -/
def executeStrategiesEx (ttl : Option Nat) : Int :=
  match ttl with
  | some t => if t = 0 then 30 else (t : Int)
  | none => 30

/-- The per-method loop of `executeStrategies`: an unregistered method is
logged and skipped (`continue`); a rejecting `generate`/`send`/`SET` has
no per-iteration catch and aborts the remaining methods. -/
def executeStrategiesLoop (svc : Service) (taskId : String)
    (options : AddTaskOptions) : List String → M Unit
  | [] => pure ()
  | method :: rest =>
    match alookup svc.strategies method with
    | none => executeStrategiesLoop svc taskId options rest
    | some strategy => do
        let otp ← strategy.generate
        strategy.send options.recipient otp
        Redis.setEx (otpKey taskId method) otp
          (executeStrategiesEx options.ttl)
        executeStrategiesLoop svc taskId options rest

/-- `executeStrategies(taskId, data, options)`. -/
def executeStrategies (svc : Service) (taskId : String)
    (options : AddTaskOptions) : M Unit :=
  executeStrategiesLoop svc taskId options options.allowedMethods

/-- `addToQueue(queueName, taskId, priority)`: `zadd` to
`priority_queue:<q>` when `priority > 0`, else
`rpush('queue:<q>', priority, taskId)` — ioredis pushes *both* arguments,
so the FIFO list receives the priority's string and then the task id. -/
def addToQueue (queueName taskId : String) (priority : Int) : M Unit :=
  if priority > 0 then
    Redis.zadd ("priority_queue:" ++ queueName) priority taskId
  else
    Redis.rpush ("queue:" ++ queueName) [toString priority, taskId]

/-- `removeFromQueue(queueKey, taskId)`: dispatch on the key's current
Redis type; unknown type is a logged no-op. -/
def removeFromQueue (queueKey taskId : String) : M Unit := do
  let queueType ← Redis.typeOf queueKey
  if queueType = "zset" then Redis.zrem queueKey taskId
  else if queueType = "list" then Redis.lrem queueKey taskId
  else pure ()

/-- `updateTaskStatus(taskId, status, method)`: reads the stored hash
(`hgetall` resolves to an object — possibly empty — which is truthy, so
the `if (!taskData)` guard never fires), picks the queue key from the
*stored* priority, then on `SUCCESS` runs `Promise.all` of: delete the
task record, remove from the queue, delete all method OTP keys. `now`
models `Date.now()` in the non-success branch. -/
def updateTaskStatus (taskId : String) (status : TaskFlowStatus)
    (method : String) (now : Nat) : M Unit := do
  let taskData ← Redis.hgetall (taskKey taskId)
  let queueKey :=
    if gtZero (parseIntHV (alookup taskData "priority"))
    then "priority_queue:" ++ interpHV (alookup taskData "queue")
    else "queue:" ++ interpHV (alookup taskData "queue")
  if status = .SUCCESS then
    pAll3 (Redis.del (taskKey taskId))
          (removeFromQueue queueKey taskId)
          (cleanupOtpKeys taskId)
  else
    Redis.hmset (taskKey taskId)
      [("status", .str status.str), ("verifiedAt", .int (now : Int)),
       ("verificationMethod", .str method)]

/-- `!savedOtp` on the `GET` result (`null` and `''` are falsy). -/
def jsFalsyOptStr : Option String → Bool
  | none => true
  | some s => s = ""

/-- `verify(taskId, method, otp)`: validate the stored code, then
`Promise.all([DEL otpKey, getTaskMetadata])`, then `updateTaskStatus
SUCCESS`, then publish the metadata on `task_verified`; any error is
caught and turned into `false`. -/
def verify (svc : Service) (taskId method otp : String) (now : Nat) :
    M Bool :=
  M.tryCatch
    (do
      let savedOtp ← Redis.get (otpKey taskId method)
      if jsFalsyOptStr savedOtp || savedOtp ≠ some otp then pure false
      else do
        let (_, metadata) ←
          pAll2 (Redis.del (otpKey taskId method))
                (getTaskMetadata taskId)
        updateTaskStatus taskId .SUCCESS method now
        Redis.publish "task_verified" metadata
        pure true)
    (fun _ => pure false)

/-- `addTask(queueName, data, options)`: persist, issue OTPs, enqueue —
in that order; the surrounding `try`/`catch` swallows every error (only
logging it), so the promise resolves with `undefined` (`none`) instead of
rejecting. `freshId` models `generateTaskId()`, `now` models
`Date.now()`. -/
def addTask (svc : Service) (queueName : String) (data : String)
    (options : AddTaskOptions) (freshId : String) (now : Nat) :
    M (Option TaskRecord) :=
  M.tryCatch
    (do
      let taskMetadata := createTaskMetadata svc freshId queueName data options now
      saveTaskMetadata freshId taskMetadata options.ttl
      executeStrategies svc freshId options
      addToQueue queueName freshId taskMetadata.priority
      pure (some taskMetadata))
    (fun _ => pure none)

/-! ## The retry executor (`callback.service.ts`) -/

/-- The retry policy handed to `executeCallback` (`this.options.retry`):
`none` models an absent property, for which the destructuring defaults
(`3`, `'fixed'`, `1000`) apply. -/
structure RetryOptions where
  maxAttempts : Option Nat := none
  backoffStrategy : Option String := none
  backoffTime : Option Nat := none
  deriving Repr, DecidableEq

/-- `calculateBackoffDelay(attempt, baseTime, strategy)`: a strategies
map with `exponential`/`linear`/`fixed` entries and a `?.() || baseTime`
fallback for anything else. -/
def calculateBackoffDelay (attempt baseTime : Nat) (strategy : String) : Nat :=
  if strategy = "exponential" then baseTime * 2 ^ (attempt - 1)
  else if strategy = "linear" then baseTime * attempt
  else baseTime

/-- The observable outcome of `executeCallback`: how many times the
callback ran, the backoff delays slept between attempts (in order), and
the error the promise rejected with (`none` = resolved). -/
structure RetryTrace where
  calls : Nat
  delays : List Nat
  error : Option Err
  deriving Repr, DecidableEq

/-- The `for (let attempt = 1; attempt <= maxAttempts; attempt++)` loop of
`executeCallback`. The callback is modelled by its outcome per attempt
number (`fn n = none` — the nth invocation resolves; `some e` — it
rejects with `e`). `fuel = maxAttempts - attempt + 1` counts the loop
iterations left; at `fuel = 0` the loop exits and the function resolves
without having run the callback (reached only when `maxAttempts = 0`). -/
def executeLoop (fn : Nat → Option Err) (maxAttempts baseTime : Nat)
    (strategy : String) : (attempt fuel : Nat) → RetryTrace
  | _, 0 => { calls := 0, delays := [], error := none }
  | attempt, fuel + 1 =>
    match fn attempt with
    | none => { calls := 1, delays := [], error := none }
    | some e =>
      if maxAttempts ≤ attempt then { calls := 1, delays := [], error := some e }
      else
        let d := calculateBackoffDelay attempt baseTime strategy
        let t := executeLoop fn maxAttempts baseTime strategy (attempt + 1) fuel
        { calls := t.calls + 1, delays := d :: t.delays, error := t.error }

/-- `executeCallback(callbackFn, taskId)` with the policy from
`this.options.retry || {}` (defaults `maxAttempts = 3`,
`backoffStrategy = 'fixed'`, `backoffTime = 1000`). -/
def executeCallback (fn : Nat → Option Err) (opts : RetryOptions) : RetryTrace :=
  executeLoop fn (opts.maxAttempts.getD 3) (opts.backoffTime.getD 1000)
    (opts.backoffStrategy.getD "fixed") 1 (opts.maxAttempts.getD 3)

/-! ## Statement-support definitions

Derived notions used to state the claims; each is a direct description of
an aspect of the embedded code's behaviour. -/

/-- The queue key `updateTaskStatus` computes from the task's *stored*
priority, for a task stored as `serializeMetadata t`. -/
def queueKeyOf (t : TaskRecord) : String :=
  if 0 < t.priority then "priority_queue:" ++ t.queue else "queue:" ++ t.queue

/-- Is the task id in the FIFO list of queue `q`? -/
def inFifo (s : St) (q tid : String) : Bool :=
  ((alookup s.lists ("queue:" ++ q)).getD []).contains tid

/-- Is the task id a member of the priority zset of queue `q`? -/
def inPrio (s : St) (q tid : String) : Bool :=
  (alookup ((alookup s.zsets ("priority_queue:" ++ q)).getD []) tid).isSome

/-- The write events a fault-free `executeStrategiesLoop` appends for the
given method list: per registered method, a `send` to the options'
recipient followed by a `SET` of the OTP key; unregistered methods are
skipped. -/
def issuedEvents (svc : Service) (taskId : String) (options : AddTaskOptions) :
    List String → List Ev
  | [] => []
  | m :: rest =>
    match alookup svc.strategies m with
    | none => issuedEvents svc taskId options rest
    | some strat =>
        .sent strat.sid options.recipient strat.genCode ::
        .setK (otpKey taskId m) strat.genCode (executeStrategiesEx options.ttl) ::
        issuedEvents svc taskId options rest

/-- The kv map after a fault-free `executeStrategiesLoop`: one OTP key
upserted per registered method. -/
def issuedKv (svc : Service) (taskId : String) (options : AddTaskOptions) :
    List String → List (String × String × Int) → List (String × String × Int)
  | [], kv => kv
  | m :: rest, kv =>
    match alookup svc.strategies m with
    | none => issuedKv svc taskId options rest kv
    | some strat => issuedKv svc taskId options rest
        (upsert kv (otpKey taskId m) (strat.genCode, executeStrategiesEx options.ttl))

/-- Every method of the list that is registered has a strategy whose
`generate` and `send` both succeed. -/
def methodsOk (svc : Service) (ms : List String) : Bool :=
  ms.all fun m =>
    match alookup svc.strategies m with
    | none => true
    | some strat => !strat.genFails && !strat.sendFails

/-- The enqueue event `addToQueue` records. -/
def enqueueEv (queueName taskId : String) (priority : Int) : Ev :=
  if priority > 0 then .zaddK ("priority_queue:" ++ queueName) priority taskId
  else .rpushK ("queue:" ++ queueName) [toString priority, taskId]

/-- The expiry event `saveTaskMetadata` records when the task has a
truthy ttl. -/
def expireEvs (taskId : String) (ttl : Option Nat) : List Ev :=
  match ttl with
  | some n => if n = 0 then [] else
      [.expireK (taskKey taskId) (ceilDivInt (n : Int) 1000)]
  | none => []

/-- The events a fault-free `resendForKeys` appends per registry entry:
a `send` to the stored recipient and a `SET` of the method's OTP key. -/
def resendEvents (tid recipient : String) (exSecs : Int) :
    List (String × BaseStrategy) → List Ev
  | [] => []
  | (m, strat) :: rest =>
      .sent strat.sid recipient strat.genCode ::
      .setK (otpKey tid m) strat.genCode exSecs ::
      resendEvents tid recipient exSecs rest

/-- Modelled from the spec (§4.4): the OTP record's TTL in seconds,
`TTL = ttl ?? jobTimeout ?? 30000ms` converted to whole seconds by
ceiling division. -/
def specOtpTtlSeconds (ttl jobTimeout : Option Nat) : Int :=
  ceilDivInt ((ttl.getD (jobTimeout.getD 30000)) : Int) 1000

/-- The first attempt number in `[a, a + f)` at which the callback
succeeds (`none` if every attempt in the window fails). -/
def firstSucc (fn : Nat → Option Err) : (a f : Nat) → Option Nat
  | _, 0 => none
  | a, f + 1 => if fn a = none then some a else firstSucc fn (a + 1) f

/-! ## Concrete scenarios (used by witnesses and counterexamples) -/

/-- A registry with one EMAIL strategy. -/
def wSvc : Service :=
  { strategies := [("EMAIL", { sid := "EMAIL", genCode := "123456" })] }

/-- A registry with EMAIL and SMS strategies. -/
def wSvc2 : Service :=
  { strategies := [("EMAIL", { sid := "EMAIL", genCode := "111" }),
                   ("SMS", { sid := "SMS", genCode := "222" })] }

/-- A task configured for EMAIL only, priority 0, ttl 60000 ms. -/
def wOpts : AddTaskOptions :=
  { recipient := "r", allowedMethods := ["EMAIL"], ttl := some 60000 }

/-- The record `createTaskMetadata` builds for `wOpts` on queue `q`. -/
def wTask : TaskRecord :=
  { id := "T", queue := "q", data := "d", recipient := "r",
    status := .PENDING, priority := 0, timeout := 30000, timestamp := 1,
    ttl := some 60000 }

/-- A store holding `wTask`, its EMAIL OTP and its FIFO queue entry. -/
def wSt : St :=
  { kv := [(otpKey "T" "EMAIL", ("123456", 60))],
    hashes := [(taskKey "T", serializeMetadata wTask)],
    lists := [("queue:q", ["0", "T"])] }

/-- A registry whose EMAIL strategy's `send` rejects; SMS works. -/
def wSvcFail : Service :=
  { strategies :=
      [("EMAIL", { sid := "EMAIL", genCode := "111", sendFails := true }),
       ("SMS", { sid := "SMS", genCode := "222" })] }

/-- Options allowing EMAIL then SMS. -/
def wOpts2 : AddTaskOptions :=
  { recipient := "r", allowedMethods := ["EMAIL", "SMS"], ttl := some 60000 }

/-- Options allowing EMAIL then an unregistered method PUSH. -/
def wOptsU : AddTaskOptions :=
  { recipient := "r", allowedMethods := ["EMAIL", "PUSH"], ttl := some 60000 }

/-- The store produced by adding an EMAIL-only task under the
two-strategy registry `wSvc2`. -/
def c5St : St := (addTask wSvc2 "q" "d" wOpts "T" 1 {}).2

/-- A store holding just `wTask`'s record. -/
def c5St0 : St := { hashes := [(taskKey "T", serializeMetadata wTask)] }

/-! ## Proof machinery -/

@[simp]
theorem alookup_upsert {α : Type} (l : List (String × α)) (k k' : String) (v : α) :
    alookup (upsert l k v) k' = if k' = k then some v else alookup l k' := by
  induction l with
  | nil =>
    by_cases h : k' = k
    · subst h; simp [upsert, alookup]
    · simp [upsert, alookup, h, Ne.symm h]
  | cons hd tl ih =>
    obtain ⟨k₀, v₀⟩ := hd
    by_cases h₀ : k₀ = k
    · subst h₀
      by_cases h : k' = k₀
      · subst h; simp [upsert, alookup]
      · simp [upsert, alookup, h, Ne.symm h]
    · by_cases h : k' = k₀
      · subst h
        simp [upsert, alookup, h₀, ih, Ne.symm h₀]
      · simp [upsert, alookup, h₀, Ne.symm h, ih]

@[simp]
theorem alookup_aremove {α : Type} (l : List (String × α)) (k k' : String) :
    alookup (aremove l k) k' = if k' = k then none else alookup l k' := by
  induction l with
  | nil =>
    by_cases h : k' = k <;> simp [aremove, alookup, h]
  | cons hd tl ih =>
    obtain ⟨k₀, v₀⟩ := hd
    by_cases h₀ : k₀ = k
    · subst h₀
      by_cases h : k' = k₀
      · subst h; simp [aremove, alookup, ih]
      · simp [aremove, alookup, h, Ne.symm h, ih]
    · by_cases h : k' = k₀
      · subst h
        simp [aremove, alookup, h₀, ih, Ne.symm h₀]
      · simp [aremove, alookup, h₀, Ne.symm h, h, ih]

theorem string_ne_of_data_ne {a b : String} (h : a.data ≠ b.data) : a ≠ b :=
  fun he => h (by rw [he])

theorem data_head_ne {a b : String} {c d : Char} {la lb : List Char}
    (ha : a.data = c :: la) (hb : b.data = d :: lb) (h : c ≠ d) : a ≠ b := by
  apply string_ne_of_data_ne
  rw [ha, hb]
  simp [h]

theorem otpKey_data (t m : String) :
    (otpKey t m).data = 'o' :: 't' :: 'p' :: ':' :: (t.data ++ ':' :: m.data) := by
  simp [otpKey, String.data_append]

theorem taskKey_data (t : String) :
    (taskKey t).data = 't' :: 'a' :: 's' :: 'k' :: ':' :: t.data := by
  simp [taskKey, String.data_append]

theorem queueKey_data (q : String) :
    ("queue:" ++ q).data = 'q' :: 'u' :: 'e' :: 'u' :: 'e' :: ':' :: q.data := by
  simp [String.data_append]

theorem prioKey_data (q : String) :
    ("priority_queue:" ++ q).data =
      'p' :: 'r' :: 'i' :: 'o' :: 'r' :: 'i' :: 't' :: 'y' :: '_' :: 'q' ::
      'u' :: 'e' :: 'u' :: 'e' :: ':' :: q.data := by
  simp [String.data_append]

@[simp] theorem otpKey_ne_taskKey (t m t' : String) : otpKey t m ≠ taskKey t' :=
  data_head_ne (otpKey_data t m) (taskKey_data t') (by decide)

@[simp] theorem taskKey_ne_otpKey (t' t m : String) : taskKey t' ≠ otpKey t m :=
  (otpKey_ne_taskKey t m t').symm

@[simp] theorem queueKey_ne_otpKey (q t m : String) : "queue:" ++ q ≠ otpKey t m :=
  data_head_ne (queueKey_data q) (otpKey_data t m) (by decide)

@[simp] theorem otpKey_ne_queueKey (t m q : String) : otpKey t m ≠ "queue:" ++ q :=
  (queueKey_ne_otpKey q t m).symm

@[simp] theorem queueKey_ne_taskKey (q t : String) : "queue:" ++ q ≠ taskKey t :=
  data_head_ne (queueKey_data q) (taskKey_data t) (by decide)

@[simp] theorem taskKey_ne_queueKey (t q : String) : taskKey t ≠ "queue:" ++ q :=
  (queueKey_ne_taskKey q t).symm

@[simp] theorem prioKey_ne_otpKey (q t m : String) :
    "priority_queue:" ++ q ≠ otpKey t m :=
  data_head_ne (prioKey_data q) (otpKey_data t m) (by decide)

@[simp] theorem otpKey_ne_prioKey (t m q : String) :
    otpKey t m ≠ "priority_queue:" ++ q :=
  (prioKey_ne_otpKey q t m).symm

@[simp] theorem prioKey_ne_taskKey (q t : String) :
    "priority_queue:" ++ q ≠ taskKey t :=
  data_head_ne (prioKey_data q) (taskKey_data t) (by decide)

@[simp] theorem taskKey_ne_prioKey (t q : String) :
    taskKey t ≠ "priority_queue:" ++ q :=
  (prioKey_ne_taskKey q t).symm

/-- Running a bind: evaluate the first action, feed its value on success,
short-circuit on rejection. -/
theorem run_bind {α β : Type} (m : M α) (f : α → M β) (s : St) :
    (m >>= f) s =
      match m s with
      | (Except.ok a, s') => f a s'
      | (Except.error e, s') => (Except.error e, s') := rfl

/-- Running `pure`. -/
theorem run_pure {α : Type} (a : α) (s : St) :
    (pure a : M α) s = (Except.ok a, s) := rfl

/-- A `try/catch` whose handler is a `pure` always resolves. -/
theorem tryCatch_pure_total {α : Type} (body : M α) (c : α) (s : St) :
    ∃ b s', M.tryCatch body (fun _ => pure c) s = (Except.ok b, s') := by
  unfold M.tryCatch
  rcases h : body s with ⟨r, s'⟩
  cases r with
  | ok a => exact ⟨a, s', by simp [h]⟩
  | error e => exact ⟨c, s', by simp [h, run_pure]⟩

/-- The full run of a successful `verify`: the stored OTP matches, the
task record exists, and the queue key is well-typed; the run returns
`true`, deletes the OTP keys, the Store record and the queue entry, and
publishes the parsed metadata last. -/
theorem verify_success_spec (svc : Service) (t : TaskRecord)
    (method code : String) (ex : Int) (now : Nat) (s₀ : St)
    (hdown : s₀.down = false)
    (htask : alookup s₀.hashes (taskKey t.id) = some (serializeMetadata t))
    (hotp : alookup s₀.kv (otpKey t.id method) = some (code, ex))
    (hcode : code ≠ "")
    (hqkv : alookup s₀.kv (queueKeyOf t) = none)
    (hqh : alookup s₀.hashes (queueKeyOf t) = none)
    (hq : if 0 < t.priority
          then alookup s₀.lists (queueKeyOf t) = none ∧
               ∃ z, alookup s₀.zsets (queueKeyOf t) = some z
          else ∃ l, alookup s₀.lists (queueKeyOf t) = some l) :
    ∃ s', verify svc t.id method code now s₀ = (Except.ok true, s') ∧
      s'.down = false ∧
      alookup s'.hashes (taskKey t.id) = none ∧
      (∀ m', (m' = method ∨ m' ∈ taskFlowMethods) →
        alookup s'.kv (otpKey t.id m') = none) ∧
      (if 0 < t.priority then inPrio s' t.queue t.id = false
       else inFifo s' t.queue t.id = false) ∧
      s'.trace = s₀.trace ++
        [.delK (otpKey t.id method), .delK (taskKey t.id),
         (if 0 < t.priority then Ev.zremK (queueKeyOf t) t.id
          else Ev.lremK (queueKeyOf t) t.id),
         .delK (otpKey t.id "SMS"), .delK (otpKey t.id "EMAIL"),
         .delK (otpKey t.id "SMART_OTP"),
         .pubTask "task_verified" (parseMeta (serializeMetadata t))] := by
  by_cases hpri : 0 < t.priority
  · simp only [queueKeyOf, if_pos hpri] at hqkv hqh hq
    obtain ⟨hql, z, hz⟩ := hq
    refine ⟨(verify svc t.id method code now s₀).2, ?_, ?_, ?_, ?_, ?_, ?_⟩ <;>
      simp [verify, M.tryCatch, M.fail, run_bind, run_pure, pAll2, pAll3,
            Redis.get, Redis.del, Redis.publish, Redis.guard, Redis.hgetall,
            Redis.typeOf, Redis.lrem, Redis.zrem, getTaskMetadata, parseMeta,
            updateTaskStatus, removeFromQueue, cleanupOtpKeys, jsFalsyOptStr,
            serializeMetadata, strOrEmptyObj, jsonParse, jsonStringify,
            parseIntHV, gtZero, interpHV, taskFlowMethods, queueKeyOf, alookup,
            inPrio, inFifo,
            hdown, htask, hotp, hcode, hqkv, hqh, hql, hz, hpri]
  · simp only [queueKeyOf, if_neg hpri] at hqkv hqh hq
    obtain ⟨l, hl⟩ := hq
    refine ⟨(verify svc t.id method code now s₀).2, ?_, ?_, ?_, ?_, ?_, ?_⟩ <;>
      simp [verify, M.tryCatch, M.fail, run_bind, run_pure, pAll2, pAll3,
            Redis.get, Redis.del, Redis.publish, Redis.guard, Redis.hgetall,
            Redis.typeOf, Redis.lrem, Redis.zrem, getTaskMetadata, parseMeta,
            updateTaskStatus, removeFromQueue, cleanupOtpKeys, jsFalsyOptStr,
            serializeMetadata, strOrEmptyObj, jsonParse, jsonStringify,
            parseIntHV, gtZero, interpHV, taskFlowMethods, queueKeyOf, alookup,
            inPrio, inFifo,
            hdown, htask, hotp, hcode, hqkv, hqh, hl, hpri]

/-- The EX argument `executeStrategies` passes is always positive (a set
nonzero ttl in ms, or 30), so its `SET` never rejects on the expire
argument. -/
theorem executeStrategiesEx_pos (ttl : Option Nat) :
    0 < executeStrategiesEx ttl := by
  rcases ttl with _ | n
  · simp [executeStrategiesEx]
  · rcases n with _ | k
    · simp [executeStrategiesEx]
    · simp [executeStrategiesEx]

/-- A fault-free `executeStrategiesLoop` resolves, upserting the OTP keys
and appending the per-method send/set events; it touches no other state
component. -/
theorem executeStrategiesLoop_ok (svc : Service) (taskId : String)
    (options : AddTaskOptions) :
    ∀ (ms : List String) (s : St), s.down = false → methodsOk svc ms = true →
    executeStrategiesLoop svc taskId options ms s =
      (Except.ok (),
       { s with kv := issuedKv svc taskId options ms s.kv,
                trace := s.trace ++ issuedEvents svc taskId options ms }) := by
  intro ms
  induction ms with
  | nil =>
    intro s hdown hok
    simp [executeStrategiesLoop, issuedKv, issuedEvents, run_pure]
  | cons m rest ih =>
    intro s hdown hok
    simp only [methodsOk, List.all_cons, Bool.and_eq_true] at hok
    obtain ⟨hm, hrest⟩ := hok
    have hrest' : methodsOk svc rest = true := hrest
    cases halo : alookup svc.strategies m with
    | none =>
      rw [halo] at hm
      simp [executeStrategiesLoop, halo, issuedKv, issuedEvents,
            ih s hdown hrest']
    | some strat =>
      rw [halo] at hm
      simp only [Bool.and_eq_true, Bool.not_eq_true'] at hm
      obtain ⟨hgen, hsend⟩ := hm
      have hexpos := executeStrategiesEx_pos options.ttl
      have hstep := ih { s with
          kv := upsert s.kv (otpKey taskId m)
            (strat.genCode, executeStrategiesEx options.ttl),
          trace := s.trace ++
            [.sent strat.sid options.recipient strat.genCode,
             .setK (otpKey taskId m) strat.genCode
               (executeStrategiesEx options.ttl)] }
        (by simp [hdown]) hrest'
      simp only [hdown] at hstep
      rw [executeStrategiesLoop]
      simp [halo, run_bind, BaseStrategy.generate, BaseStrategy.send,
            Redis.setEx, Redis.guard, hgen, hsend, hdown, not_le.mpr hexpos,
            hstep, issuedKv, issuedEvents]

/-- `hmset` of the serialized metadata into a fresh hash yields exactly
the serialized field list (the literal keys are pairwise distinct). -/
theorem foldl_upsert_serializeMetadata (t : TaskRecord) :
    List.foldl (fun acc (fv : String × HVal) => upsert acc fv.1 fv.2) []
      (serializeMetadata t) = serializeMetadata t := rfl

/-- The full run of a fault-free `addTask`: resolves with the created
record, persists it, and appends the events persist → expire? →
per-method issuance → enqueue, in that order. -/
theorem addTask_success_spec (svc : Service) (queueName data freshId : String)
    (options : AddTaskOptions) (now : Nat) (s₀ : St)
    (hdown : s₀.down = false)
    (hok : methodsOk svc options.allowedMethods = true)
    (hfresh : alookup s₀.hashes (taskKey freshId) = none) :
    ∃ s', addTask svc queueName data options freshId now s₀ =
      (Except.ok (some (createTaskMetadata svc freshId queueName data options now)), s') ∧
      s'.down = false ∧
      alookup s'.hashes (taskKey freshId) =
        some (serializeMetadata (createTaskMetadata svc freshId queueName data options now)) ∧
      s'.trace = s₀.trace
        ++ [.hmsetK (taskKey freshId)
              (serializeMetadata (createTaskMetadata svc freshId queueName data options now))]
        ++ expireEvs freshId options.ttl
        ++ issuedEvents svc freshId options options.allowedMethods
        ++ [enqueueEv queueName freshId
              (createTaskMetadata svc freshId queueName data options now).priority] := by
  obtain ⟨recip, ams, prio, timeo, ttl⟩ := options
  have hloop := executeStrategiesLoop_ok svc freshId ⟨recip, ams, prio, timeo, ttl⟩ ams
  by_cases hpri : (0 : Int) < prio.getD 0
  all_goals (
    rcases ttl with _ | n
    · refine ⟨(addTask svc queueName data ⟨recip, ams, prio, timeo, none⟩ freshId now s₀).2,
        ?_, ?_, ?_, ?_⟩ <;>
      simp [addTask, M.tryCatch, run_bind, run_pure, createTaskMetadata,
            saveTaskMetadata, executeStrategies, addToQueue, enqueueEv, expireEvs,
            Redis.hmset, Redis.expire, Redis.rpush, Redis.zadd, Redis.guard,
            hdown, hok, hfresh, hpri, hloop, foldl_upsert_serializeMetadata]
    · by_cases hz : n = 0
      · subst hz
        refine ⟨(addTask svc queueName data ⟨recip, ams, prio, timeo, some 0⟩ freshId now s₀).2,
          ?_, ?_, ?_, ?_⟩ <;>
        simp [addTask, M.tryCatch, run_bind, run_pure, createTaskMetadata,
              saveTaskMetadata, executeStrategies, addToQueue, enqueueEv, expireEvs,
              Redis.hmset, Redis.expire, Redis.rpush, Redis.zadd, Redis.guard,
              hdown, hok, hfresh, hpri, hloop, foldl_upsert_serializeMetadata]
      · refine ⟨(addTask svc queueName data ⟨recip, ams, prio, timeo, some n⟩ freshId now s₀).2,
          ?_, ?_, ?_, ?_⟩ <;>
        simp [addTask, M.tryCatch, run_bind, run_pure, createTaskMetadata,
              saveTaskMetadata, executeStrategies, addToQueue, enqueueEv, expireEvs,
              Redis.hmset, Redis.expire, Redis.rpush, Redis.zadd, Redis.guard,
              hdown, hok, hfresh, hpri, hz, hloop, foldl_upsert_serializeMetadata])

/-- Issuance events decompose along list append. -/
theorem issuedEvents_append (svc : Service) (tid : String)
    (o : AddTaskOptions) : ∀ xs ys,
    issuedEvents svc tid o (xs ++ ys) =
      issuedEvents svc tid o xs ++ issuedEvents svc tid o ys := by
  intro xs ys
  induction xs with
  | nil => simp [issuedEvents]
  | cons m rest ih =>
    cases halo : alookup svc.strategies m <;>
      simp [issuedEvents, halo, ih]

/-- When a registered strategy's `generate` or `send` rejects, the loop —
which has no per-iteration catch — rejects after processing only the
preceding methods; the failing and the remaining methods contribute no
events. -/
theorem executeStrategiesLoop_fail (svc : Service) (taskId : String)
    (options : AddTaskOptions) (post : List String) (mF : String)
    (stratF : BaseStrategy)
    (halo : alookup svc.strategies mF = some stratF)
    (hfail : stratF.genFails = true ∨
             (stratF.genFails = false ∧ stratF.sendFails = true)) :
    ∀ (pre : List String) (s : St), s.down = false →
      methodsOk svc pre = true →
    ∃ e, executeStrategiesLoop svc taskId options (pre ++ mF :: post) s =
      (Except.error e,
       { s with kv := issuedKv svc taskId options pre s.kv,
                trace := s.trace ++ issuedEvents svc taskId options pre }) := by
  intro pre
  induction pre with
  | nil =>
    intro s hdown hok
    rcases hfail with hgen | ⟨hgen, hsend⟩
    · exact ⟨"generate failed", by
        simp [executeStrategiesLoop, run_bind, BaseStrategy.generate, halo,
              hgen, issuedKv, issuedEvents]⟩
    · exact ⟨"send failed", by
        simp [executeStrategiesLoop, run_bind, BaseStrategy.generate,
              BaseStrategy.send, halo, hgen, hsend, issuedKv, issuedEvents]⟩
  | cons m rest ih =>
    intro s hdown hok
    simp only [methodsOk, List.all_cons, Bool.and_eq_true] at hok
    obtain ⟨hm, hrest⟩ := hok
    have hrest' : methodsOk svc rest = true := hrest
    cases halom : alookup svc.strategies m with
    | none =>
      obtain ⟨e, hrun⟩ := ih s hdown hrest'
      exact ⟨e, by simp [executeStrategiesLoop, halom, issuedKv, issuedEvents, hrun]⟩
    | some strat =>
      rw [halom] at hm
      simp only [Bool.and_eq_true, Bool.not_eq_true'] at hm
      obtain ⟨hgen, hsend⟩ := hm
      have hexpos := executeStrategiesEx_pos options.ttl
      obtain ⟨e, hrun⟩ := ih { s with
          kv := upsert s.kv (otpKey taskId m)
            (strat.genCode, executeStrategiesEx options.ttl),
          trace := s.trace ++
            [.sent strat.sid options.recipient strat.genCode,
             .setK (otpKey taskId m) strat.genCode
               (executeStrategiesEx options.ttl)] }
        (by simp [hdown]) hrest'
      simp only [hdown, createTaskMetadata] at hrun
      refine ⟨e, ?_⟩
      rw [List.cons_append, executeStrategiesLoop]
      simp [halom, run_bind, BaseStrategy.generate, BaseStrategy.send,
            Redis.setEx, Redis.guard, hgen, hsend, hdown, not_le.mpr hexpos,
            hrun, issuedKv, issuedEvents]



/-- The full run of an `addTask` whose method list contains a method with
a rejecting strategy after a fault-free prefix: the task is persisted,
the prefix methods are issued, then the loop rejects — so the remaining
methods are skipped, the task is never enqueued, and the catch makes the
call resolve with `undefined` (`none`). -/
theorem addTask_abort_spec (svc : Service) (queueName data freshId : String)
    (options : AddTaskOptions) (now : Nat) (s₀ : St)
    (pre post : List String) (mF : String) (stratF : BaseStrategy)
    (hdown : s₀.down = false)
    (hfresh : alookup s₀.hashes (taskKey freshId) = none)
    (hsplit : options.allowedMethods = pre ++ mF :: post)
    (halo : alookup svc.strategies mF = some stratF)
    (hfail : stratF.genFails = true ∨
             (stratF.genFails = false ∧ stratF.sendFails = true))
    (hok : methodsOk svc pre = true) :
    ∃ s', addTask svc queueName data options freshId now s₀ =
      (Except.ok none, s') ∧
      s'.lists = s₀.lists ∧ s'.zsets = s₀.zsets ∧
      alookup s'.hashes (taskKey freshId) =
        some (serializeMetadata (createTaskMetadata svc freshId queueName data options now)) ∧
      s'.trace = s₀.trace
        ++ [.hmsetK (taskKey freshId)
              (serializeMetadata (createTaskMetadata svc freshId queueName data options now))]
        ++ expireEvs freshId options.ttl
        ++ issuedEvents svc freshId options pre := by
  obtain ⟨recip, ams, prio, timeo, ttl⟩ := options
  simp only at hsplit
  subst hsplit
  have hloop := executeStrategiesLoop_fail svc freshId
    ⟨recip, pre ++ mF :: post, prio, timeo, ttl⟩ post mF stratF halo hfail pre
  rcases ttl with _ | n
  · obtain ⟨e, hrun⟩ := hloop
      { s₀ with
          hashes := upsert s₀.hashes (taskKey freshId)
            (serializeMetadata (createTaskMetadata svc freshId queueName data
              ⟨recip, pre ++ mF :: post, prio, timeo, none⟩ now)),
          trace := s₀.trace ++ [.hmsetK (taskKey freshId)
            (serializeMetadata (createTaskMetadata svc freshId queueName data
              ⟨recip, pre ++ mF :: post, prio, timeo, none⟩ now))] }
      (by simp [hdown]) hok
    simp only [hdown, createTaskMetadata] at hrun
    refine ⟨(addTask svc queueName data ⟨recip, pre ++ mF :: post, prio, timeo, none⟩ freshId now s₀).2,
      ?_, ?_, ?_, ?_, ?_⟩ <;>
    simp [addTask, M.tryCatch, run_bind, run_pure, createTaskMetadata,
          saveTaskMetadata, executeStrategies, expireEvs,
          Redis.hmset, Redis.expire, Redis.guard,
          hdown, hfresh, hrun, foldl_upsert_serializeMetadata]
  · by_cases hz : n = 0
    · subst hz
      obtain ⟨e, hrun⟩ := hloop
        { s₀ with
            hashes := upsert s₀.hashes (taskKey freshId)
              (serializeMetadata (createTaskMetadata svc freshId queueName data
                ⟨recip, pre ++ mF :: post, prio, timeo, some 0⟩ now)),
            trace := s₀.trace ++ [.hmsetK (taskKey freshId)
              (serializeMetadata (createTaskMetadata svc freshId queueName data
                ⟨recip, pre ++ mF :: post, prio, timeo, some 0⟩ now))] }
        (by simp [hdown]) hok
      simp only [hdown, createTaskMetadata] at hrun
      refine ⟨(addTask svc queueName data ⟨recip, pre ++ mF :: post, prio, timeo, some 0⟩ freshId now s₀).2,
        ?_, ?_, ?_, ?_, ?_⟩ <;>
      simp [addTask, M.tryCatch, run_bind, run_pure, createTaskMetadata,
            saveTaskMetadata, executeStrategies, expireEvs,
            Redis.hmset, Redis.expire, Redis.guard,
            hdown, hfresh, hrun, foldl_upsert_serializeMetadata]
    · obtain ⟨e, hrun⟩ := hloop
        { s₀ with
            hashes := upsert s₀.hashes (taskKey freshId)
              (serializeMetadata (createTaskMetadata svc freshId queueName data
                ⟨recip, pre ++ mF :: post, prio, timeo, some n⟩ now)),
            trace := s₀.trace
              ++ [.hmsetK (taskKey freshId)
                    (serializeMetadata (createTaskMetadata svc freshId queueName data
                      ⟨recip, pre ++ mF :: post, prio, timeo, some n⟩ now)),
                  .expireK (taskKey freshId) (ceilDivInt (n : Int) 1000)] }
        (by simp [hdown]) hok
      simp only [hdown, createTaskMetadata] at hrun
      refine ⟨(addTask svc queueName data ⟨recip, pre ++ mF :: post, prio, timeo, some n⟩ freshId now s₀).2,
        ?_, ?_, ?_, ?_, ?_⟩ <;>
      simp [addTask, M.tryCatch, run_bind, run_pure, createTaskMetadata,
            saveTaskMetadata, executeStrategies, expireEvs,
            Redis.hmset, Redis.expire, Redis.guard,
            hdown, hfresh, hz, hrun, foldl_upsert_serializeMetadata]

/-- Ceiling division of positives is positive (so `EXPIRE`/`EX` arguments
derived from a positive millisecond ttl are accepted). -/
theorem ceilDivInt_pos {a b : Int} (ha : 0 < a) (hb : 0 < b) :
    0 < ceilDivInt a b := by
  unfold ceilDivInt
  rw [Int.fdiv_eq_ediv _ (le_of_lt hb)]
  have h := Int.ediv_neg' (a := -a) (b := b) (by omega) hb
  omega

/-- The full run of a fault-free `resendOtp` on a stored task whose
recipient field has been patched to `newR` and whose stored ttl is a
positive `T` ms: it sends to `newR` and caches the code with
`EX ceil(T/1000)`. -/
theorem resendOtp_run (svc : Service) (tid m : String) (strat : BaseStrategy)
    (t : TaskRecord) (newR : String) (T : Nat) (s : St)
    (hdown : s.down = false)
    (hh : alookup s.hashes (taskKey tid) =
      some (upsert (serializeMetadata t) "recipient" (.str newR)))
    (httl : t.ttl = some T) (hT : T ≠ 0)
    (hnewR : newR ≠ "") (hm : m ≠ "")
    (halo : alookup svc.strategies m = some strat)
    (hgen : strat.genFails = false) (hsend : strat.sendFails = false) :
    resendOtp svc tid m s =
      (Except.ok (),
       { s with
           kv := upsert s.kv (otpKey tid m)
             (strat.genCode, ceilDivInt (T : Int) 1000),
           trace := s.trace ++
             [.sent strat.sid newR strat.genCode,
              .setK (otpKey tid m) strat.genCode (ceilDivInt (T : Int) 1000)] }) := by
  have hEX : 0 < ceilDivInt (T : Int) 1000 :=
    ceilDivInt_pos (by omega) (by omega)
  simp [resendOtp, M.tryCatch, M.fail, run_bind, run_pure,
        getTaskMetadata, Redis.hgetall, Redis.guard, parseMeta,
        isValidOtpRequest, generateAndSendOtp, BaseStrategy.generate,
        BaseStrategy.send, cacheOtp, TaskMeta.ttlRaw, HVal.truthy,
        HVal.toNum, Redis.setEx, jsonParse, jsonStringify, strOrEmptyObj,
        serializeMetadata, alookup, upsert, parseIntHV, jsOr,
        hdown, hh, httl, hT, hnewR, hm, halo, hgen, hsend,
        not_le.mpr hEX]



/-- The traversal of the whole strategy registry performed by
`resendOtpsForAllMethods`: one send + one `SET` per registry entry, in
registry order, each to the patched recipient. -/
theorem resendForKeys_run (svc : Service) (tid : String) (t : TaskRecord)
    (newR : String) (T : Nat)
    (httl : t.ttl = some T) (hT : T ≠ 0) (hnewR : newR ≠ "") :
    ∀ (keys : List (String × BaseStrategy)) (s : St), s.down = false →
      alookup s.hashes (taskKey tid) =
        some (upsert (serializeMetadata t) "recipient" (.str newR)) →
      (∀ p ∈ keys, alookup svc.strategies p.1 = some p.2 ∧ p.1 ≠ "" ∧
        p.2.genFails = false ∧ p.2.sendFails = false) →
      ∃ kv', resendForKeys svc tid keys s =
        (Except.ok (),
         { s with kv := kv',
                  trace := s.trace ++
                    resendEvents tid newR (ceilDivInt (T : Int) 1000) keys }) := by
  intro keys
  induction keys with
  | nil =>
    intro s hdown hh hreg
    exact ⟨s.kv, by simp [resendForKeys, resendEvents, run_pure]⟩
  | cons p rest ih =>
    intro s hdown hh hreg
    obtain ⟨m, strat⟩ := p
    obtain ⟨halo, hm, hgen, hsend⟩ := hreg (m, strat) (List.mem_cons_self _ _)
    have hstep := resendOtp_run svc tid m strat t newR T s hdown hh httl hT
      hnewR hm halo hgen hsend
    obtain ⟨kv', hrest⟩ := ih
      { s with
          kv := upsert s.kv (otpKey tid m)
            (strat.genCode, ceilDivInt (T : Int) 1000),
          trace := s.trace ++
            [.sent strat.sid newR strat.genCode,
             .setK (otpKey tid m) strat.genCode (ceilDivInt (T : Int) 1000)] }
      (by simp [hdown]) (by simp [hh])
      (fun q hq => hreg q (List.mem_cons_of_mem _ hq))
    refine ⟨kv', ?_⟩
    rw [resendForKeys, run_bind, hstep]
    simp only [hdown] at hrest
    simp [hdown, hrest, resendEvents]



/-- The full run of a fault-free `updateRecipient`: patch the recipient,
delete the built-in methods' OTP keys, then re-issue for every entry of
the strategy registry (not the task's original `allowedMethods`, which
are never persisted). -/
theorem updateRecipient_run (svc : Service) (t : TaskRecord) (newR : String)
    (T : Nat) (s₀ : St)
    (hdown : s₀.down = false)
    (htask : alookup s₀.hashes (taskKey t.id) = some (serializeMetadata t))
    (httl : t.ttl = some T) (hT : T ≠ 0) (hnewR : newR ≠ "")
    (hreg : ∀ p ∈ svc.strategies, alookup svc.strategies p.1 = some p.2 ∧
      p.1 ≠ "" ∧ p.2.genFails = false ∧ p.2.sendFails = false) :
    ∃ s', updateRecipient svc t.id newR s₀ = (Except.ok (), s') ∧
      s'.down = false ∧
      alookup s'.hashes (taskKey t.id) =
        some (upsert (serializeMetadata t) "recipient" (.str newR)) ∧
      s'.trace = s₀.trace
        ++ [.hmsetK (taskKey t.id) [("recipient", .str newR)],
            .delK (otpKey t.id "SMS"), .delK (otpKey t.id "EMAIL"),
            .delK (otpKey t.id "SMART_OTP")]
        ++ resendEvents t.id newR (ceilDivInt (T : Int) 1000) svc.strategies := by
  obtain ⟨kv', hrun⟩ := resendForKeys_run svc t.id t newR T httl hT hnewR
    svc.strategies
    { s₀ with
        kv := aremove (aremove (aremove s₀.kv (otpKey t.id "SMS"))
          (otpKey t.id "EMAIL")) (otpKey t.id "SMART_OTP"),
        hashes := aremove (aremove (aremove
          (upsert s₀.hashes (taskKey t.id)
            (upsert (serializeMetadata t) "recipient" (.str newR)))
          (otpKey t.id "SMS")) (otpKey t.id "EMAIL")) (otpKey t.id "SMART_OTP"),
        lists := aremove (aremove (aremove s₀.lists (otpKey t.id "SMS"))
          (otpKey t.id "EMAIL")) (otpKey t.id "SMART_OTP"),
        zsets := aremove (aremove (aremove s₀.zsets (otpKey t.id "SMS"))
          (otpKey t.id "EMAIL")) (otpKey t.id "SMART_OTP"),
        trace := s₀.trace ++
          [.hmsetK (taskKey t.id) [("recipient", .str newR)],
           .delK (otpKey t.id "SMS"), .delK (otpKey t.id "EMAIL"),
           .delK (otpKey t.id "SMART_OTP")] }
    (by simp [hdown]) (by simp) hreg
  simp only [hdown] at hrun
  simp [serializeMetadata, upsert, jsonStringify, httl, hT] at hrun
  refine ⟨(updateRecipient svc t.id newR s₀).2, ?_, ?_, ?_, ?_⟩ <;>
    simp [updateRecipient, M.tryCatch, M.fail, run_bind, run_pure,
          getTaskMetadata, parseMeta, persistUpdatedRecipient,
          resendOtpsForAllMethods, cleanupOtpKeys, pAll3,
          Redis.hgetall, Redis.hmset, Redis.del, Redis.guard,
          jsonParse, jsonStringify, strOrEmptyObj, serializeMetadata,
          parseIntHV, alookup, upsert, resendEvents,
          hdown, htask, httl, hT, hnewR, hrun]

/-- Shifting the attempt window of a delay list by one. -/
theorem range_map_delay_shift (base : Nat) (strat : String) (a j : Nat) :
    (List.range (j + 1)).map (fun i => calculateBackoffDelay (a + i) base strat) =
      calculateBackoffDelay a base strat ::
        (List.range j).map (fun i => calculateBackoffDelay (a + 1 + i) base strat) := by
  rw [List.range_succ_eq_map, List.map_cons, List.map_map]
  refine congrArg₂ _ (by simp) ?_
  apply List.map_congr_left
  intro i _
  simp only [Function.comp]
  congr 1
  omega

/-- The retry loop invokes the callback at most `fuel` times (at most
`maxAttempts` from the entry point). -/
theorem executeLoop_calls_le (fn : Nat → Option Err) (maxA base : Nat)
    (strat : String) : ∀ (f a : Nat),
    (executeLoop fn maxA base strat a f).calls ≤ f := by
  intro f
  induction f with
  | zero => intro a; simp [executeLoop]
  | succ f' ih =>
    intro a
    rw [executeLoop]
    cases fn a with
    | none => simp
    | some e =>
      by_cases h : maxA ≤ a
      · simp [h]
      · simp only [h, if_neg, ite_false]
        have := ih (a + 1)
        simp
        omega

/-- If the callback first succeeds at attempt `a + j` inside the window,
the loop stops there: `j + 1` invocations, one backoff delay per failed
attempt, and the promise resolves. -/
theorem executeLoop_first_success (fn : Nat → Option Err) (maxA base : Nat)
    (strat : String) : ∀ (j f a : Nat), a + f = maxA + 1 → j < f →
    fn (a + j) = none → (∀ i < j, (fn (a + i)).isSome) →
    executeLoop fn maxA base strat a f =
      { calls := j + 1,
        delays := (List.range j).map
          (fun i => calculateBackoffDelay (a + i) base strat),
        error := none } := by
  intro j
  induction j with
  | zero =>
    intro f a hinv hlt hsucc _
    obtain ⟨f', rfl⟩ : ∃ f', f = f' + 1 := ⟨f - 1, by omega⟩
    simp only [Nat.add_zero] at hsucc
    rw [executeLoop, hsucc]
    simp
  | succ j' ih =>
    intro f a hinv hlt hsucc hfail
    obtain ⟨f', rfl⟩ : ∃ f', f = f' + 1 := ⟨f - 1, by omega⟩
    obtain ⟨e, he⟩ : ∃ e, fn a = some e := by
      have := hfail 0 (by omega)
      simp only [Nat.add_zero] at this
      exact Option.isSome_iff_exists.mp this
    have hrec := ih f' (a + 1) (by omega) (by omega)
      (by rw [show a + 1 + j' = a + (j' + 1) by omega]; exact hsucc)
      (fun i hi => by
        rw [show a + 1 + i = a + (i + 1) by omega]
        exact hfail (i + 1) (by omega))
    rw [executeLoop, he]
    have hna : ¬ maxA ≤ a := by omega
    simp only [hna, ite_false, hrec]
    rw [range_map_delay_shift]

/-- If every attempt in the window fails, the loop runs the whole window
and rejects with the *last* attempt's error (`fn maxA`). -/
theorem executeLoop_all_fail (fn : Nat → Option Err) (maxA base : Nat)
    (strat : String) : ∀ (f a : Nat), 1 ≤ f → a + f = maxA + 1 →
    (∀ i < f, (fn (a + i)).isSome) →
    executeLoop fn maxA base strat a f =
      { calls := f,
        delays := (List.range (f - 1)).map
          (fun i => calculateBackoffDelay (a + i) base strat),
        error := fn maxA } := by
  intro f
  induction f with
  | zero => intro a h; omega
  | succ f' ih =>
    intro a _ hinv hfail
    obtain ⟨e, he⟩ : ∃ e, fn a = some e := by
      have := hfail 0 (by omega)
      simp only [Nat.add_zero] at this
      exact Option.isSome_iff_exists.mp this
    rcases Nat.eq_zero_or_pos f' with hz | hpos
    · subst hz
      have ha : a = maxA := by omega
      subst ha
      rw [executeLoop, he]
      simp [he]
    · have hrec := ih (a + 1) (by omega) (by omega)
        (fun i hi => by
          rw [show a + 1 + i = a + (i + 1) by omega]
          exact hfail (i + 1) (by omega))
      rw [executeLoop, he]
      have hna : ¬ maxA ≤ a := by omega
      simp only [hna, ite_false, hrec]
      obtain ⟨f'', rfl⟩ : ∃ f'', f' = f'' + 1 := ⟨f' - 1, by omega⟩
      simp only [Nat.add_sub_cancel]
      rw [range_map_delay_shift]



/-- `calculateBackoffDelay` at attempt `n = i + 1` matches the claim's
formulas: `base` for fixed (and any unknown strategy), `base·n` for
linear, `base·2^(n−1)` for exponential. -/
theorem delay_formula (base : Nat) (strat : String) (j : Nat) :
    (List.range j).map (fun i => calculateBackoffDelay (1 + i) base strat) =
      (List.range j).map (fun i =>
        if strat = "exponential" then base * 2 ^ i
        else if strat = "linear" then base * (i + 1) else base) := by
  apply List.map_congr_left
  intro i _
  by_cases h1 : strat = "exponential"
  · simp [calculateBackoffDelay, h1, Nat.add_sub_cancel_left]
  · by_cases h2 : strat = "linear"
    · simp [calculateBackoffDelay, h1, h2, Nat.add_comm]
    · simp [calculateBackoffDelay, h1, h2]

/-! ## The claims -/

/-- C1: when the stored OTP for `(taskId, method)` equals the submitted
code, `verify` returns `true`, deletes the task record from the Store,
deletes the OTP records for the verified method and for every built-in
method, removes the task id from the queue chosen by the task's *stored*
priority (priority zset when `> 0`, FIFO list otherwise), and — as the
trace equality shows — performs all OTP and Store deletions strictly
before publishing the `task_verified` notification carrying the task's
parsed metadata. -/
theorem C1_verify_success_cleans_up_then_publishes (svc : Service)
    (t : TaskRecord) (method code : String) (ex : Int) (now : Nat) (s₀ : St)
    (hdown : s₀.down = false)
    (htask : alookup s₀.hashes (taskKey t.id) = some (serializeMetadata t))
    (hotp : alookup s₀.kv (otpKey t.id method) = some (code, ex))
    (hcode : code ≠ "")
    (hqkv : alookup s₀.kv (queueKeyOf t) = none)
    (hqh : alookup s₀.hashes (queueKeyOf t) = none)
    (hq : if 0 < t.priority
          then alookup s₀.lists (queueKeyOf t) = none ∧
               ∃ z, alookup s₀.zsets (queueKeyOf t) = some z
          else ∃ l, alookup s₀.lists (queueKeyOf t) = some l) :
    ∃ s', verify svc t.id method code now s₀ = (Except.ok true, s') ∧
      alookup s'.hashes (taskKey t.id) = none ∧
      (∀ m', (m' = method ∨ m' ∈ taskFlowMethods) →
        alookup s'.kv (otpKey t.id m') = none) ∧
      (if 0 < t.priority then inPrio s' t.queue t.id = false
       else inFifo s' t.queue t.id = false) ∧
      s'.trace = s₀.trace ++
        [.delK (otpKey t.id method), .delK (taskKey t.id),
         (if 0 < t.priority then Ev.zremK (queueKeyOf t) t.id
          else Ev.lremK (queueKeyOf t) t.id),
         .delK (otpKey t.id "SMS"), .delK (otpKey t.id "EMAIL"),
         .delK (otpKey t.id "SMART_OTP"),
         .pubTask "task_verified" (parseMeta (serializeMetadata t))] := by
  obtain ⟨s', hrun, _, hstore, hotps, hqueue, htrace⟩ :=
    verify_success_spec svc t method code ex now s₀ hdown htask hotp hcode
      hqkv hqh hq
  exact ⟨s', hrun, hstore, hotps, hqueue, htrace⟩

/-- Witness for C1 at a concrete priority-0 task. -/
theorem C1_witness :
    wSt.down = false ∧
    alookup wSt.hashes (taskKey wTask.id) = some (serializeMetadata wTask) ∧
    alookup wSt.kv (otpKey wTask.id "EMAIL") = some ("123456", 60) ∧
    "123456" ≠ "" ∧
    alookup wSt.kv (queueKeyOf wTask) = none ∧
    alookup wSt.hashes (queueKeyOf wTask) = none ∧
    (if 0 < wTask.priority
     then alookup wSt.lists (queueKeyOf wTask) = none ∧
          ∃ z, alookup wSt.zsets (queueKeyOf wTask) = some z
     else ∃ l, alookup wSt.lists (queueKeyOf wTask) = some l) ∧
    (∃ s', verify wSvc wTask.id "EMAIL" "123456" 5 wSt = (Except.ok true, s') ∧
      alookup s'.hashes (taskKey wTask.id) = none ∧
      (∀ m', (m' = "EMAIL" ∨ m' ∈ taskFlowMethods) →
        alookup s'.kv (otpKey wTask.id m') = none) ∧
      (if 0 < wTask.priority then inPrio s' wTask.queue wTask.id = false
       else inFifo s' wTask.queue wTask.id = false) ∧
      s'.trace = wSt.trace ++
        [.delK (otpKey wTask.id "EMAIL"), .delK (taskKey wTask.id),
         (if 0 < wTask.priority then Ev.zremK (queueKeyOf wTask) wTask.id
          else Ev.lremK (queueKeyOf wTask) wTask.id),
         .delK (otpKey wTask.id "SMS"), .delK (otpKey wTask.id "EMAIL"),
         .delK (otpKey wTask.id "SMART_OTP"),
         .pubTask "task_verified" (parseMeta (serializeMetadata wTask))]) :=
  ⟨by decide, by decide, by decide, by decide, by decide, by decide,
   by rw [if_neg (by decide)]; exact ⟨["0", "T"], by decide⟩,
   C1_verify_success_cleans_up_then_publishes wSvc wTask "EMAIL" "123456"
     60 5 wSt (by decide) (by decide) (by decide) (by decide) (by decide)
     (by decide)
     (by rw [if_neg (by decide)]; exact ⟨["0", "T"], by decide⟩)⟩

/-- C2: if `verify` succeeds, the stored OTP for `(taskId, method)` is
deleted before `true` is returned, so an immediately following second
`verify` with the same code returns `false` (single-use, sequential
model). -/
theorem C2_verify_single_use (svc : Service) (t : TaskRecord)
    (method code : String) (ex : Int) (now : Nat) (s₀ : St)
    (hdown : s₀.down = false)
    (htask : alookup s₀.hashes (taskKey t.id) = some (serializeMetadata t))
    (hotp : alookup s₀.kv (otpKey t.id method) = some (code, ex))
    (hcode : code ≠ "")
    (hqkv : alookup s₀.kv (queueKeyOf t) = none)
    (hqh : alookup s₀.hashes (queueKeyOf t) = none)
    (hq : if 0 < t.priority
          then alookup s₀.lists (queueKeyOf t) = none ∧
               ∃ z, alookup s₀.zsets (queueKeyOf t) = some z
          else ∃ l, alookup s₀.lists (queueKeyOf t) = some l) :
    ∃ s', verify svc t.id method code now s₀ = (Except.ok true, s') ∧
      alookup s'.kv (otpKey t.id method) = none ∧
      (verify svc t.id method code now s').1 = Except.ok false := by
  obtain ⟨s', hrun, hdown', _, hotps, _, _⟩ :=
    verify_success_spec svc t method code ex now s₀ hdown htask hotp hcode
      hqkv hqh hq
  have hnone := hotps method (Or.inl rfl)
  refine ⟨s', hrun, hnone, ?_⟩
  simp [verify, M.tryCatch, run_bind, run_pure, Redis.get, Redis.guard,
        jsFalsyOptStr, hdown', hnone]

/-- Witness for C2. -/
theorem C2_witness :
    wSt.down = false ∧
    alookup wSt.hashes (taskKey wTask.id) = some (serializeMetadata wTask) ∧
    alookup wSt.kv (otpKey wTask.id "EMAIL") = some ("123456", 60) ∧
    "123456" ≠ "" ∧
    alookup wSt.kv (queueKeyOf wTask) = none ∧
    alookup wSt.hashes (queueKeyOf wTask) = none ∧
    (if 0 < wTask.priority
     then alookup wSt.lists (queueKeyOf wTask) = none ∧
          ∃ z, alookup wSt.zsets (queueKeyOf wTask) = some z
     else ∃ l, alookup wSt.lists (queueKeyOf wTask) = some l) ∧
    (∃ s', verify wSvc wTask.id "EMAIL" "123456" 5 wSt = (Except.ok true, s') ∧
      alookup s'.kv (otpKey wTask.id "EMAIL") = none ∧
      (verify wSvc wTask.id "EMAIL" "123456" 5 s').1 = Except.ok false) :=
  ⟨by decide, by decide, by decide, by decide, by decide, by decide,
   by rw [if_neg (by decide)]; exact ⟨["0", "T"], by decide⟩,
   C2_verify_single_use wSvc wTask "EMAIL" "123456" 60 5 wSt (by decide)
     (by decide) (by decide) (by decide) (by decide) (by decide)
     (by rw [if_neg (by decide)]; exact ⟨["0", "T"], by decide⟩)⟩

/-- C9 (implicit): when the stored OTP matches but the task record is
absent from the Store, `verify` returns `false` yet has already deleted
the matching OTP key — a `false` return does not guarantee the state is
unchanged, and the same code can never be used again. -/
theorem C9_false_return_still_consumes_otp (svc : Service)
    (tid method code : String) (ex : Int) (now : Nat) (s₀ : St)
    (hdown : s₀.down = false)
    (htask : alookup s₀.hashes (taskKey tid) = none)
    (hotp : alookup s₀.kv (otpKey tid method) = some (code, ex))
    (hcode : code ≠ "") :
    ∃ s', verify svc tid method code now s₀ = (Except.ok false, s') ∧
      alookup s'.kv (otpKey tid method) = none ∧
      s'.trace = s₀.trace ++ [.delK (otpKey tid method)] := by
  refine ⟨(verify svc tid method code now s₀).2, ?_, ?_, ?_⟩ <;>
    simp [verify, M.tryCatch, M.fail, run_bind, run_pure, pAll2,
          Redis.get, Redis.del, Redis.guard, Redis.hgetall,
          getTaskMetadata, jsFalsyOptStr,
          hdown, htask, hotp, hcode]

/-- Witness for C9. -/
theorem C9_witness :
    (({ kv := [(otpKey "T" "EMAIL", ("123456", 60))] } : St).down = false) ∧
    alookup ({ kv := [(otpKey "T" "EMAIL", ("123456", 60))] } : St).hashes
      (taskKey "T") = none ∧
    alookup ({ kv := [(otpKey "T" "EMAIL", ("123456", 60))] } : St).kv
      (otpKey "T" "EMAIL") = some ("123456", 60) ∧
    "123456" ≠ "" ∧
    (∃ s', verify wSvc "T" "EMAIL" "123456" 5
        ({ kv := [(otpKey "T" "EMAIL", ("123456", 60))] } : St) =
        (Except.ok false, s') ∧
      alookup s'.kv (otpKey "T" "EMAIL") = none ∧
      s'.trace = ({ kv := [(otpKey "T" "EMAIL", ("123456", 60))] } : St).trace
        ++ [.delK (otpKey "T" "EMAIL")]) :=
  ⟨by decide, by decide, by decide, by decide,
   C9_false_return_still_consumes_otp wSvc "T" "EMAIL" "123456" 60 5 _
     (by decide) (by decide) (by decide) (by decide)⟩

/-- C7: `verify` never rejects — for every state (a broken backing store
included) it resolves with a boolean — and it resolves with `false`
whenever the submitted code mismatches the stored one, the stored code is
absent (never stored or already expired), the task record is absent, or
the backing store is down; in particular a rejection could only come from
an infrastructure failure, and the catch-all converts even that to
`false`. -/
theorem C7_verify_never_throws (svc : Service) (tid method code : String)
    (now : Nat) (s : St) :
    (∃ b s', verify svc tid method code now s = (Except.ok b, s')) ∧
    (s.down = true → (verify svc tid method code now s).1 = Except.ok false) ∧
    (∀ v ex, s.down = false → alookup s.kv (otpKey tid method) = some (v, ex) →
      (v = "" ∨ v ≠ code) →
      (verify svc tid method code now s).1 = Except.ok false) ∧
    (s.down = false → alookup s.kv (otpKey tid method) = none →
      (verify svc tid method code now s).1 = Except.ok false) ∧
    (s.down = false → alookup s.hashes (taskKey tid) = none →
      (verify svc tid method code now s).1 = Except.ok false) := by
  refine ⟨tryCatch_pure_total _ false s, ?_, ?_, ?_, ?_⟩
  · intro hdown
    simp [verify, M.tryCatch, run_bind, run_pure, Redis.get, Redis.guard, hdown]
  · rintro v ex hdown hv (hempty | hne)
    · subst hempty
      simp [verify, M.tryCatch, run_bind, run_pure, Redis.get, Redis.guard,
            jsFalsyOptStr, hdown, hv]
    · simp [verify, M.tryCatch, run_bind, run_pure, Redis.get, Redis.guard,
            jsFalsyOptStr, hdown, hv, hne]
  · intro hdown hnone
    simp [verify, M.tryCatch, run_bind, run_pure, Redis.get, Redis.guard,
          jsFalsyOptStr, hdown, hnone]
  · intro hdown htask
    rcases hv : alookup s.kv (otpKey tid method) with _ | ⟨v, ex⟩
    · simp [verify, M.tryCatch, run_bind, run_pure, Redis.get, Redis.guard,
            jsFalsyOptStr, hdown, hv]
    · by_cases hempty : v = ""
      · subst hempty
        simp [verify, M.tryCatch, run_bind, run_pure, Redis.get, Redis.guard,
              jsFalsyOptStr, hdown, hv]
      · by_cases hne : v = code
        · subst hne
          simp [verify, M.tryCatch, M.fail, run_bind, run_pure, pAll2,
                Redis.get, Redis.del, Redis.guard, Redis.hgetall,
                getTaskMetadata, jsFalsyOptStr, hdown, hv, htask, hempty]
        · simp [verify, M.tryCatch, run_bind, run_pure, Redis.get, Redis.guard,
                jsFalsyOptStr, hdown, hv, hne]

/-- Witness for C7 (the down-store and absent-code conjuncts have
hypotheses; instantiated on a concrete state). -/
theorem C7_witness :
    ((∃ b s', verify wSvc "T" "EMAIL" "000000" 5 wSt = (Except.ok b, s')) ∧
     (wSt.down = true →
       (verify wSvc "T" "EMAIL" "000000" 5 wSt).1 = Except.ok false) ∧
     (∀ v ex, wSt.down = false →
       alookup wSt.kv (otpKey "T" "EMAIL") = some (v, ex) →
       (v = "" ∨ v ≠ "000000") →
       (verify wSvc "T" "EMAIL" "000000" 5 wSt).1 = Except.ok false) ∧
     (wSt.down = false → alookup wSt.kv (otpKey "T" "EMAIL") = none →
       (verify wSvc "T" "EMAIL" "000000" 5 wSt).1 = Except.ok false) ∧
     (wSt.down = false → alookup wSt.hashes (taskKey "T") = none →
       (verify wSvc "T" "EMAIL" "000000" 5 wSt).1 = Except.ok false)) ∧
    (verify wSvc "T" "EMAIL" "000000" 5 wSt).1 = Except.ok false :=
  ⟨C7_verify_never_throws wSvc "T" "EMAIL" "000000" 5 wSt,
   (C7_verify_never_throws wSvc "T" "EMAIL" "000000" 5 wSt).2.2.1 "123456" 60
     (by decide) (by decide) (Or.inr (by decide))⟩

/-- C10 (implicit): a priority-0 enqueue `rpush`es *two* elements — the
string `"0"` and then the task id — onto the FIFO list
`queue:<queue>`, so the list holds entries that are not task ids; a
later removal `lrem`s only the task id occurrences, leaving the `"0"`
behind; the `priority > 0` path stores only the task id, with the
priority as its score, in `priority_queue:<queue>`. -/
theorem C10_fifo_gets_priority_marker (q tid : String) (s : St)
    (hdown : s.down = false) :
    (addToQueue q tid 0 s =
      (Except.ok (),
       { s with
           lists := upsert s.lists ("queue:" ++ q)
             (((alookup s.lists ("queue:" ++ q)).getD []) ++ ["0", tid]),
           trace := s.trace ++ [.rpushK ("queue:" ++ q) ["0", tid]] }))
    ∧
    (∀ (s' : St) (l : List String), s'.down = false →
      alookup s'.kv ("queue:" ++ q) = none →
      alookup s'.hashes ("queue:" ++ q) = none →
      alookup s'.lists ("queue:" ++ q) = some l →
      removeFromQueue ("queue:" ++ q) tid s' =
        (Except.ok (),
         { s' with
             lists := upsert s'.lists ("queue:" ++ q) (l.filter (· ≠ tid)),
             trace := s'.trace ++ [.lremK ("queue:" ++ q) tid] })
      ∧ (tid ≠ "0" → "0" ∈ l → "0" ∈ l.filter (· ≠ tid)))
    ∧
    (∀ p : Int, 0 < p →
      addToQueue q tid p s =
        (Except.ok (),
         { s with
             zsets := upsert s.zsets ("priority_queue:" ++ q)
               (upsert ((alookup s.zsets ("priority_queue:" ++ q)).getD [])
                 tid p),
             trace := s.trace ++ [.zaddK ("priority_queue:" ++ q) p tid] })) := by
  refine ⟨?_, ?_, ?_⟩
  · simp [addToQueue, Redis.rpush, Redis.guard, hdown,
          show toString (0 : Int) = "0" from rfl]
  · intro s' l hdown' hkv hh hl
    constructor
    · simp [removeFromQueue, run_bind, Redis.typeOf, Redis.lrem, Redis.guard,
            hdown', hkv, hh, hl]
    · intro hne hmem
      simp [List.mem_filter, hmem, Ne.symm hne]
  · intro p hp
    simp [addToQueue, Redis.zadd, Redis.guard, hdown, hp]

/-- Witness for C10 on the empty store. -/
theorem C10_witness :
    (({} : St).down = false) ∧
    (addToQueue "q" "tid" 0 {} =
      (Except.ok (),
       { ({} : St) with
           lists := upsert ({} : St).lists ("queue:" ++ "q")
             (((alookup ({} : St).lists ("queue:" ++ "q")).getD [])
               ++ ["0", "tid"]),
           trace := ({} : St).trace ++ [.rpushK ("queue:" ++ "q") ["0", "tid"]] }))
    ∧
    (∀ (s' : St) (l : List String), s'.down = false →
      alookup s'.kv ("queue:" ++ "q") = none →
      alookup s'.hashes ("queue:" ++ "q") = none →
      alookup s'.lists ("queue:" ++ "q") = some l →
      removeFromQueue ("queue:" ++ "q") "tid" s' =
        (Except.ok (),
         { s' with
             lists := upsert s'.lists ("queue:" ++ "q") (l.filter (· ≠ "tid")),
             trace := s'.trace ++ [.lremK ("queue:" ++ "q") "tid"] })
      ∧ ("tid" ≠ "0" → "0" ∈ l → "0" ∈ l.filter (· ≠ "tid")))
    ∧
    (∀ p : Int, 0 < p →
      addToQueue "q" "tid" p {} =
        (Except.ok (),
         { ({} : St) with
             zsets := upsert ({} : St).zsets ("priority_queue:" ++ "q")
               (upsert ((alookup ({} : St).zsets ("priority_queue:" ++ "q")).getD [])
                 "tid" p),
             trace := ({} : St).trace ++ [.zaddK ("priority_queue:" ++ "q") p "tid"] })) :=
  ⟨by decide, C10_fifo_gets_priority_marker "q" "tid" {} (by decide)⟩

/-- C3 counterexample: with the backing store down, the persist `hmset`
rejects, yet `addTask` resolves with `undefined` — no `TaskCreationError`
(the code has no such type) and no error of any kind reaches the
caller. -/
theorem C3_counterexample_store_failure_is_swallowed :
    addTask wSvc "q" "d" wOpts "T" 1 { down := true } =
      (Except.ok none, ({ down := true } : St)) ∧
    ∀ e : Err, (addTask wSvc "q" "d" wOpts "T" 1 { down := true }).1 ≠
      Except.error e := by
  have h : addTask wSvc "q" "d" wOpts "T" 1 { down := true } =
      (Except.ok none, ({ down := true } : St)) := rfl
  exact ⟨h, fun e he => by simp [h] at he⟩

/-- C3 (amended): if persisting the record fails, `addTask` catches the
error, logs it, and resolves with `undefined` — no error is surfaced to
the caller and no partial side effect occurs; on success it returns the
full task record and the side effects happen in the order persist →
issue OTPs → enqueue, as the appended trace shows. -/
theorem C3_addTask_error_swallowed_and_effect_order :
    (∀ (svc : Service) (queueName data freshId : String)
       (options : AddTaskOptions) (now : Nat) (s₀ : St),
      s₀.down = true →
      addTask svc queueName data options freshId now s₀ =
        (Except.ok none, s₀)) ∧
    (∀ (svc : Service) (queueName data freshId : String)
       (options : AddTaskOptions) (now : Nat) (s₀ : St),
      s₀.down = false →
      methodsOk svc options.allowedMethods = true →
      alookup s₀.hashes (taskKey freshId) = none →
      ∃ s', addTask svc queueName data options freshId now s₀ =
        (Except.ok (some (createTaskMetadata svc freshId queueName data options now)), s') ∧
        s'.trace = s₀.trace
          ++ [.hmsetK (taskKey freshId)
                (serializeMetadata (createTaskMetadata svc freshId queueName data options now))]
          ++ expireEvs freshId options.ttl
          ++ issuedEvents svc freshId options options.allowedMethods
          ++ [enqueueEv queueName freshId
                (createTaskMetadata svc freshId queueName data options now).priority]) := by
  constructor
  · intro svc queueName data freshId options now s₀ hdown
    simp [addTask, M.tryCatch, run_bind, run_pure, saveTaskMetadata,
          Redis.hmset, Redis.guard, hdown]
  · intro svc queueName data freshId options now s₀ hdown hok hfresh
    obtain ⟨s', hrun, _, _, htrace⟩ :=
      addTask_success_spec svc queueName data freshId options now s₀ hdown
        hok hfresh
    exact ⟨s', hrun, htrace⟩

/-- Witness for C3: both conjuncts at concrete inputs. -/
theorem C3_witness :
    (({ down := true } : St).down = true) ∧
    addTask wSvc "q" "d" wOpts "T" 1 { down := true } =
      (Except.ok none, ({ down := true } : St)) ∧
    (({} : St).down = false) ∧
    methodsOk wSvc wOpts.allowedMethods = true ∧
    alookup ({} : St).hashes (taskKey "T") = none ∧
    (∃ s', addTask wSvc "q" "d" wOpts "T" 1 {} =
      (Except.ok (some (createTaskMetadata wSvc "T" "q" "d" wOpts 1)), s') ∧
      s'.trace = ({} : St).trace
        ++ [.hmsetK (taskKey "T")
              (serializeMetadata (createTaskMetadata wSvc "T" "q" "d" wOpts 1))]
        ++ expireEvs "T" wOpts.ttl
        ++ issuedEvents wSvc "T" wOpts wOpts.allowedMethods
        ++ [enqueueEv "q" "T" (createTaskMetadata wSvc "T" "q" "d" wOpts 1).priority]) :=
  ⟨rfl,
   C3_addTask_error_swallowed_and_effect_order.1 wSvc "q" "d" "T" wOpts 1
     { down := true } rfl,
   rfl, by decide, rfl,
   C3_addTask_error_swallowed_and_effect_order.2 wSvc "q" "d" "T" wOpts 1
     {} rfl (by decide) rfl⟩

/-- C4 (code bug): `Math.ceil(options.ttl || 30000 / 1000)` parenthesizes
as `options.ttl || 30`, so the OTP issued during `addTask` with
`ttl = 60000` ms is stored with `EX 60000` *seconds* — not the `60`
seconds of the spec formula `ceil((ttl ?? jobTimeout ?? 30000) / 1000)`
that the sibling `cacheOtp` (and `saveTaskMetadata`'s own expire of the
same ttl) implements. -/
theorem C4_addTask_otp_ttl_unit_bug :
    alookup (addTask wSvc "q" "d" wOpts "T" 1 {}).2.kv (otpKey "T" "EMAIL") =
      some ("123456", 60000) ∧
    specOtpTtlSeconds wOpts.ttl wSvc.jobTimeout = 60 ∧
    (60000 : Int) ≠ 60 :=
  ⟨rfl, rfl, by decide⟩

/-- C6 counterexample: EMAIL's `send` rejects while SMS is registered and
healthy; `addTask(["EMAIL","SMS"])` then processes no further method,
never enqueues the task, and resolves with `undefined` — the per-method
failure is not confined (only the unregistered-strategy case is). The
record itself stays persisted. -/
theorem C6_counterexample_send_failure_aborts :
    (addTask wSvcFail "q" "d" wOpts2 "T" 1 {}).1 = Except.ok none ∧
    (addTask wSvcFail "q" "d" wOpts2 "T" 1 {}).2.lists = [] ∧
    (addTask wSvcFail "q" "d" wOpts2 "T" 1 {}).2.zsets = [] ∧
    (Ev.sent "SMS" "r" "222") ∉ (addTask wSvcFail "q" "d" wOpts2 "T" 1 {}).2.trace ∧
    alookup (addTask wSvcFail "q" "d" wOpts2 "T" 1 {}).2.kv (otpKey "T" "SMS") = none ∧
    alookup (addTask wSvcFail "q" "d" wOpts2 "T" 1 {}).2.hashes (taskKey "T") =
      some (serializeMetadata (createTaskMetadata wSvcFail "T" "q" "d" wOpts2 1)) :=
  ⟨rfl, rfl, rfl, by decide, rfl, rfl⟩

/-- C6 (amended): an *unregistered* strategy is logged and skipped and
does not abort the operation — the remaining methods are processed, the
task is enqueued and `addTask` succeeds; but a `generate` or `send` that
*raises* is only caught at the `addTask` level: the remaining methods are
not processed and the task is not enqueued, although `addTask` still
resolves (with `undefined`) and the record stays persisted. -/
theorem C6_per_method_failure_behaviour :
    (∀ (svc : Service) (queueName data freshId : String)
       (options : AddTaskOptions) (now : Nat) (s₀ : St)
       (pre post : List String) (mU : String),
      s₀.down = false →
      methodsOk svc options.allowedMethods = true →
      alookup s₀.hashes (taskKey freshId) = none →
      options.allowedMethods = pre ++ mU :: post →
      alookup svc.strategies mU = none →
      ∃ s', addTask svc queueName data options freshId now s₀ =
        (Except.ok (some (createTaskMetadata svc freshId queueName data options now)), s') ∧
        s'.trace = s₀.trace
          ++ [.hmsetK (taskKey freshId)
                (serializeMetadata (createTaskMetadata svc freshId queueName data options now))]
          ++ expireEvs freshId options.ttl
          ++ (issuedEvents svc freshId options pre
              ++ issuedEvents svc freshId options post)
          ++ [enqueueEv queueName freshId
                (createTaskMetadata svc freshId queueName data options now).priority]) ∧
    (∀ (svc : Service) (queueName data freshId : String)
       (options : AddTaskOptions) (now : Nat) (s₀ : St)
       (pre post : List String) (mF : String) (stratF : BaseStrategy),
      s₀.down = false →
      alookup s₀.hashes (taskKey freshId) = none →
      options.allowedMethods = pre ++ mF :: post →
      alookup svc.strategies mF = some stratF →
      (stratF.genFails = true ∨
       (stratF.genFails = false ∧ stratF.sendFails = true)) →
      methodsOk svc pre = true →
      ∃ s', addTask svc queueName data options freshId now s₀ =
        (Except.ok none, s') ∧
        s'.lists = s₀.lists ∧ s'.zsets = s₀.zsets ∧
        alookup s'.hashes (taskKey freshId) =
          some (serializeMetadata (createTaskMetadata svc freshId queueName data options now)) ∧
        s'.trace = s₀.trace
          ++ [.hmsetK (taskKey freshId)
                (serializeMetadata (createTaskMetadata svc freshId queueName data options now))]
          ++ expireEvs freshId options.ttl
          ++ issuedEvents svc freshId options pre) := by
  constructor
  · intro svc queueName data freshId options now s₀ pre post mU hdown hok
      hfresh hsplit haloU
    obtain ⟨s', hrun, _, _, htrace⟩ :=
      addTask_success_spec svc queueName data freshId options now s₀ hdown
        hok hfresh
    refine ⟨s', hrun, ?_⟩
    rw [htrace, hsplit, issuedEvents_append]
    simp [issuedEvents, haloU]
  · intro svc queueName data freshId options now s₀ pre post mF stratF hdown
      hfresh hsplit halo hfail hok
    exact addTask_abort_spec svc queueName data freshId options now s₀ pre
      post mF stratF hdown hfresh hsplit halo hfail hok

/-- Witness for C6: the skip conjunct at `["EMAIL", "PUSH"]` with PUSH
unregistered; the abort conjunct at `["EMAIL", "SMS"]` with EMAIL's
`send` rejecting. -/
theorem C6_witness :
    (({} : St).down = false) ∧
    methodsOk wSvc wOptsU.allowedMethods = true ∧
    alookup ({} : St).hashes (taskKey "T") = none ∧
    wOptsU.allowedMethods = ["EMAIL"] ++ "PUSH" :: [] ∧
    alookup wSvc.strategies "PUSH" = none ∧
    (∃ s', addTask wSvc "q" "d" wOptsU "T" 1 {} =
      (Except.ok (some (createTaskMetadata wSvc "T" "q" "d" wOptsU 1)), s') ∧
      s'.trace = ({} : St).trace
        ++ [.hmsetK (taskKey "T")
              (serializeMetadata (createTaskMetadata wSvc "T" "q" "d" wOptsU 1))]
        ++ expireEvs "T" wOptsU.ttl
        ++ (issuedEvents wSvc "T" wOptsU ["EMAIL"]
            ++ issuedEvents wSvc "T" wOptsU [])
        ++ [enqueueEv "q" "T" (createTaskMetadata wSvc "T" "q" "d" wOptsU 1).priority]) ∧
    wOpts2.allowedMethods = [] ++ "EMAIL" :: ["SMS"] ∧
    alookup wSvcFail.strategies "EMAIL" =
      some { sid := "EMAIL", genCode := "111", sendFails := true } ∧
    methodsOk wSvcFail ([] : List String) = true ∧
    (∃ s', addTask wSvcFail "q" "d" wOpts2 "T" 1 {} =
      (Except.ok none, s') ∧
      s'.lists = ({} : St).lists ∧ s'.zsets = ({} : St).zsets ∧
      alookup s'.hashes (taskKey "T") =
        some (serializeMetadata (createTaskMetadata wSvcFail "T" "q" "d" wOpts2 1)) ∧
      s'.trace = ({} : St).trace
        ++ [.hmsetK (taskKey "T")
              (serializeMetadata (createTaskMetadata wSvcFail "T" "q" "d" wOpts2 1))]
        ++ expireEvs "T" wOpts2.ttl
        ++ issuedEvents wSvcFail "T" wOpts2 []) :=
  ⟨rfl, by decide, rfl, rfl, rfl,
   C6_per_method_failure_behaviour.1 wSvc "q" "d" "T" wOptsU 1 {} ["EMAIL"]
     [] "PUSH" rfl (by decide) rfl rfl rfl,
   rfl, rfl, by decide,
   C6_per_method_failure_behaviour.2 wSvcFail "q" "d" "T" wOpts2 1 {} []
     ["SMS"] "EMAIL" { sid := "EMAIL", genCode := "111", sendFails := true }
     rfl rfl rfl rfl (Or.inr ⟨rfl, rfl⟩) (by decide)⟩

/-- C5 counterexample: a task created with `allowedMethods = ["EMAIL"]`
under a registry that also has SMS; `updateRecipient` re-issues and
re-sends for SMS too — the re-issue set is the strategy registry's keys,
not the set of methods the task was originally configured with. -/
theorem C5_counterexample_reissues_beyond_allowed_methods :
    wOpts.allowedMethods = ["EMAIL"] ∧
    ("SMS" ∈ wOpts.allowedMethods → False) ∧
    Ev.sent "SMS" "new" "222" ∈ (updateRecipient wSvc2 "T" "new" c5St).2.trace ∧
    alookup (updateRecipient wSvc2 "T" "new" c5St).2.kv (otpKey "T" "SMS") =
      some ("222", 60) := by
  refine ⟨rfl, by decide, by decide, rfl⟩

/-- C5 (amended): for an existing task, `updateRecipient` patches the
stored recipient, deletes the built-in methods' OTP keys, and then
re-issues and re-sends codes for *every method with a registered
strategy* (the registry's keys, in order) — all to the new recipient —
and any `resendOtp` performed afterwards also sends to the new
recipient, never the old one. -/
theorem C5_updateRecipient_reissues_for_registry (svc : Service)
    (t : TaskRecord) (newR : String) (T : Nat) (s₀ : St)
    (hdown : s₀.down = false)
    (htask : alookup s₀.hashes (taskKey t.id) = some (serializeMetadata t))
    (httl : t.ttl = some T) (hT : T ≠ 0) (hnewR : newR ≠ "")
    (hreg : ∀ p ∈ svc.strategies, alookup svc.strategies p.1 = some p.2 ∧
      p.1 ≠ "" ∧ p.2.genFails = false ∧ p.2.sendFails = false) :
    ∃ s', updateRecipient svc t.id newR s₀ = (Except.ok (), s') ∧
      s'.trace = s₀.trace
        ++ [.hmsetK (taskKey t.id) [("recipient", .str newR)],
            .delK (otpKey t.id "SMS"), .delK (otpKey t.id "EMAIL"),
            .delK (otpKey t.id "SMART_OTP")]
        ++ resendEvents t.id newR (ceilDivInt (T : Int) 1000) svc.strategies ∧
      (∀ m strat, alookup svc.strategies m = some strat → m ≠ "" →
        strat.genFails = false → strat.sendFails = false →
        (resendOtp svc t.id m s').2.trace = s'.trace ++
          [.sent strat.sid newR strat.genCode,
           .setK (otpKey t.id m) strat.genCode (ceilDivInt (T : Int) 1000)] ∧
        (resendOtp svc t.id m s').1 = Except.ok ()) := by
  obtain ⟨s', hrun, hdown', hh, htrace⟩ :=
    updateRecipient_run svc t newR T s₀ hdown htask httl hT hnewR hreg
  refine ⟨s', hrun, htrace, ?_⟩
  intro m strat halo hm hgen hsend
  have hres := resendOtp_run svc t.id m strat t newR T s' hdown' hh httl hT
    hnewR hm halo hgen hsend
  rw [hres]
  exact ⟨rfl, rfl⟩

/-- Witness for C5 on `wTask` under the two-strategy registry. -/
theorem C5_witness :
    c5St0.down = false ∧
    alookup c5St0.hashes (taskKey wTask.id) = some (serializeMetadata wTask) ∧
    wTask.ttl = some 60000 ∧
    (60000 : Nat) ≠ 0 ∧
    ("new" : String) ≠ "" ∧
    (∀ p ∈ wSvc2.strategies, alookup wSvc2.strategies p.1 = some p.2 ∧
      p.1 ≠ "" ∧ p.2.genFails = false ∧ p.2.sendFails = false) ∧
    (∃ s', updateRecipient wSvc2 wTask.id "new" c5St0 = (Except.ok (), s') ∧
      s'.trace = c5St0.trace
        ++ [.hmsetK (taskKey wTask.id) [("recipient", .str "new")],
            .delK (otpKey wTask.id "SMS"), .delK (otpKey wTask.id "EMAIL"),
            .delK (otpKey wTask.id "SMART_OTP")]
        ++ resendEvents wTask.id "new" (ceilDivInt ((60000 : Nat) : Int) 1000)
             wSvc2.strategies ∧
      (∀ m strat, alookup wSvc2.strategies m = some strat → m ≠ "" →
        strat.genFails = false → strat.sendFails = false →
        (resendOtp wSvc2 wTask.id m s').2.trace = s'.trace ++
          [.sent strat.sid "new" strat.genCode,
           .setK (otpKey wTask.id m) strat.genCode
             (ceilDivInt ((60000 : Nat) : Int) 1000)] ∧
        (resendOtp wSvc2 wTask.id m s').1 = Except.ok ())) :=
  ⟨rfl, rfl, rfl, by decide, by decide, by decide,
   C5_updateRecipient_reissues_for_registry wSvc2 wTask "new" 60000 c5St0
     rfl rfl rfl (by decide) (by decide) (by decide)⟩

/-- C8: `executeCallback` invokes the callback up to `maxAttempts` times
(defaults: 3 attempts, 1000 ms base delay, `fixed` strategy — the `getD`s
in the statement), returns after the first successful invocation with one
backoff delay per failed attempt — `baseTime` for `fixed`,
`baseTime·n` for `linear`, `baseTime·2^(n−1)` for `exponential`, `n` the
just-failed attempt — and, when all `maxAttempts` invocations fail,
rejects with the last invocation's error. -/
theorem C8_retry_executor (fn : Nat → Option Err) (opts : RetryOptions)
    (hm : 1 ≤ opts.maxAttempts.getD 3) :
    (executeCallback fn opts).calls ≤ opts.maxAttempts.getD 3 ∧
    (∀ j < opts.maxAttempts.getD 3, fn (1 + j) = none →
      (∀ i < j, (fn (1 + i)).isSome) →
      executeCallback fn opts =
        { calls := j + 1,
          delays := (List.range j).map (fun i =>
            if opts.backoffStrategy.getD "fixed" = "exponential" then
              opts.backoffTime.getD 1000 * 2 ^ i
            else if opts.backoffStrategy.getD "fixed" = "linear" then
              opts.backoffTime.getD 1000 * (i + 1)
            else opts.backoffTime.getD 1000),
          error := none }) ∧
    ((∀ i < opts.maxAttempts.getD 3, (fn (1 + i)).isSome) →
      executeCallback fn opts =
        { calls := opts.maxAttempts.getD 3,
          delays := (List.range (opts.maxAttempts.getD 3 - 1)).map (fun i =>
            if opts.backoffStrategy.getD "fixed" = "exponential" then
              opts.backoffTime.getD 1000 * 2 ^ i
            else if opts.backoffStrategy.getD "fixed" = "linear" then
              opts.backoffTime.getD 1000 * (i + 1)
            else opts.backoffTime.getD 1000),
          error := fn (opts.maxAttempts.getD 3) }) := by
  refine ⟨executeLoop_calls_le fn _ _ _ _ _, ?_, ?_⟩
  · intro j hj hsucc hfail
    have h := executeLoop_first_success fn (opts.maxAttempts.getD 3)
      (opts.backoffTime.getD 1000) (opts.backoffStrategy.getD "fixed") j
      (opts.maxAttempts.getD 3) 1 (by omega) hj hsucc hfail
    rw [executeCallback, h, delay_formula]
  · intro hfail
    have h := executeLoop_all_fail fn (opts.maxAttempts.getD 3)
      (opts.backoffTime.getD 1000) (opts.backoffStrategy.getD "fixed")
      (opts.maxAttempts.getD 3) 1 hm (by omega) hfail
    rw [executeCallback, h, delay_formula]

/-- Witness for C8: a callback failing twice then succeeding, under the
default policy. -/
theorem C8_witness :
    (1 ≤ (({} : RetryOptions)).maxAttempts.getD 3) ∧
    ((fun n => if n < 3 then some "boom" else none) (1 + 2) =
      (none : Option Err)) ∧
    (∀ i < 2, ((if 1 + i < 3 then some "boom" else none) : Option Err).isSome) ∧
    (2 < ({} : RetryOptions).maxAttempts.getD 3) ∧
    executeCallback (fun n => if n < 3 then some "boom" else none) {} =
      { calls := 2 + 1,
        delays := (List.range 2).map (fun i =>
          if (({} : RetryOptions)).backoffStrategy.getD "fixed" = "exponential" then
            (({} : RetryOptions)).backoffTime.getD 1000 * 2 ^ i
          else if (({} : RetryOptions)).backoffStrategy.getD "fixed" = "linear" then
            (({} : RetryOptions)).backoffTime.getD 1000 * (i + 1)
          else (({} : RetryOptions)).backoffTime.getD 1000),
        error := none } :=
  ⟨by decide, by decide, by decide, by decide,
   (C8_retry_executor (fun n => if n < 3 then some "boom" else none) {}
     (by decide)).2.1 2 (by decide) (by decide) (by decide)⟩

end TaskFlow
